import Mathlib

/-!
Shallow embedding of the classification-and-routing pipeline of the
ProtonLumoAI repository: the rate limiter, the keyword / cached / batched
remote classification tiers, the adaptive rule learner and the per-folder
scan state machine, together with theorems settling the frozen claims.

Conventions: Python strings are Lean `String`; machine floats carrying
confidences and probabilities are `ℚ`; wall-clock instants are `ℚ`;
IMAP INTERNALDATE values are `ℤ`; Python dicts keyed by strings are
insertion-ordered association lists `List (String × β)`; Python sets are
`Finset String`.  External effects (HTTP transport, JSON parsing, hashing,
the mail store) enter as explicit oracle parameters.
-/

/-- Python `needle in haystack` on strings (substring containment). -/
def containsSub (haystack needle : String) : Bool :=
  decide (needle.data <:+: haystack.data)

/-- Python `s.lower()`, character by character (ASCII case folding). -/
def pyLower (s : String) : String :=
  ⟨s.data.map Char.toLower⟩

/-- Python `s.upper()`, character by character (ASCII case folding). -/
def pyUpper (s : String) : String :=
  ⟨s.data.map Char.toUpper⟩

/-- Python dict read `d.get(k)` on an insertion-ordered association list. -/
def dictGet (d : List (String × β)) (k : String) : Option β :=
  (d.find? (fun p => p.1 = k)).map (·.2)

/-- Python dict write `d[k] = v`: overwrite in place, else append. -/
def dictSet (d : List (String × β)) (k : String) (v : β) : List (String × β) :=
  if (dictGet d k).isSome then
    d.map (fun p => if p.1 = k then (k, v) else p)
  else d ++ [(k, v)]

/-- Python `max(items, key=f)`: first element whose key no later element
strictly exceeds (ties keep the earlier element). -/
def pyMaxBy (f : α → ℚ) : List α → Option α
  | [] => none
  | x :: xs => some (xs.foldl (fun best y => if f y > f best then y else best) x)

/-- Python slice-based chunking `l[i:i+n]` for `i = 0, n, 2n, …`. -/
def chunks (n : ℕ) : List α → List (List α)
  | [] => []
  | x :: xs => (x :: xs.take (n - 1)) :: chunks n (xs.drop (n - 1))
termination_by l => l.length
decreasing_by
  simp only [List.length_cons]
  exact Nat.lt_succ_of_le (List.length_drop .. ▸ Nat.sub_le _ _)

/-! ## RateLimiter (scripts/email_classifier_optimized.py, lines 145-178)

`wait_if_needed` first pops timestamps older than `now - period` off the
front of the deque; if `max_calls` entries remain it sleeps until the
oldest ages out (plus 0.1 s), re-purges at the post-sleep clock reading,
and finally appends the current clock reading.  The two clock readings of
one invocation (`now` before, `now2` after the optional sleep) are inputs
of the model; `time.sleep(d)` suspends for at least `d`, which is the
validity condition `rlStepOk` below. -/

/-- The `while self.calls and self.calls[0] < now - self.period: popleft()` loop. -/
def rlPurge (period now : ℚ) : List ℚ → List ℚ
  | [] => []
  | c :: cs => if c < now - period then rlPurge period now cs else c :: cs

/-- `RateLimiter.wait_if_needed`, returning the new deque and the timestamp
it records (`now` without a sleep, the post-sleep reading `now2` with one). -/
def waitIfNeeded (maxCalls : ℕ) (period : ℚ) (calls : List ℚ) (now now2 : ℚ) :
    List ℚ × ℚ :=
  if maxCalls ≤ (rlPurge period now calls).length then
    (rlPurge period now2 (rlPurge period now calls) ++ [now2], now2)
  else (rlPurge period now calls ++ [now], now)

/-- One invocation's clock readings are admissible: time moves forward, and
when the limit branch sleeps `period - (now - calls[0])` plus 0.1 s, the
post-sleep reading is at least that much later. -/
def rlStepOk (maxCalls : ℕ) (period : ℚ) (tprev : ℚ) (calls : List ℚ)
    (now now2 : ℚ) : Prop :=
  tprev ≤ now ∧ now ≤ now2 ∧
    (maxCalls ≤ (rlPurge period now calls).length →
      ∀ h, (rlPurge period now calls).head? = some h →
        now + (period - (now - h)) + 1 / 10 ≤ now2)

/-- Run the limiter over a trace of invocations; returns the final deque,
the list of recorded timestamps in order, and the final clock reading. -/
def rlRun (maxCalls : ℕ) (period : ℚ) :
    List ℚ → ℚ → List (ℚ × ℚ) → List ℚ × List ℚ × ℚ
  | calls, t, [] => (calls, [], t)
  | calls, _, (now, now2) :: rest =>
    (
      (rlRun maxCalls period (waitIfNeeded maxCalls period calls now now2).1
        (waitIfNeeded maxCalls period calls now now2).2 rest).1,
      (waitIfNeeded maxCalls period calls now now2).2 ::
        (rlRun maxCalls period (waitIfNeeded maxCalls period calls now now2).1
          (waitIfNeeded maxCalls period calls now now2).2 rest).2.1,
      (rlRun maxCalls period (waitIfNeeded maxCalls period calls now now2).1
        (waitIfNeeded maxCalls period calls now now2).2 rest).2.2)

/-- Admissibility of a whole trace of invocations. -/
def rlRunOk (maxCalls : ℕ) (period : ℚ) :
    List ℚ → ℚ → List (ℚ × ℚ) → Prop
  | _, _, [] => True
  | calls, t, (now, now2) :: rest =>
    rlStepOk maxCalls period t calls now now2 ∧
      rlRunOk maxCalls period (waitIfNeeded maxCalls period calls now now2).1
        (waitIfNeeded maxCalls period calls now now2).2 rest

/-- Membership in the half-open sliding window `(t0, t0 + period]`. -/
def rlInWindow (period t0 x : ℚ) : Bool :=
  decide (t0 < x ∧ x ≤ t0 + period)

theorem rlPurge_decomp (period now : ℚ) (l : List ℚ) :
    ∃ dropped, l = dropped ++ rlPurge period now l ∧
      ∀ x ∈ dropped, x < now - period := by
  induction l with
  | nil => exact ⟨[], rfl, by simp⟩
  | cons c cs ih =>
    by_cases h : c < now - period
    · obtain ⟨d, hd, hlt⟩ := ih
      refine ⟨c :: d, ?_, ?_⟩
      · simp [rlPurge, h, ← hd]
      · intro x hx
        rcases List.mem_cons.mp hx with rfl | hx
        · exact h
        · exact hlt x hx
    · exact ⟨[], by simp [rlPurge, h], by simp⟩

theorem rlPurge_length_le (period now : ℚ) (l : List ℚ) :
    (rlPurge period now l).length ≤ l.length := by
  induction l with
  | nil => simp [rlPurge]
  | cons c cs ih =>
    by_cases h : c < now - period
    · simp only [rlPurge, if_pos h]
      exact le_trans ih (by simp)
    · simp [rlPurge, h]

theorem rlInWindow_false_of_lt {period t0 r x : ℚ}
    (hr : rlInWindow period t0 r = true) (hx : x < r - period) :
    rlInWindow period t0 x = false := by
  simp only [rlInWindow, decide_eq_true_eq] at hr
  simp only [rlInWindow, decide_eq_false_iff_not]
  rintro ⟨h1, _⟩
  linarith [hr.2]

/-- Window-count invariant carried through a run of the limiter: `pre` is the
history already purged off the deque (all older than `t - period`), `calls`
the live deque; every sliding window over the history so far holds at most
`maxCalls` timestamps, and the property persists over any admissible run. -/
theorem rlRun_invariant (maxCalls : ℕ) (period : ℚ) (hN : 1 ≤ maxCalls) :
    ∀ (inputs : List (ℚ × ℚ)) (calls : List ℚ) (t : ℚ) (pre : List ℚ),
      rlRunOk maxCalls period calls t inputs →
      (∀ x ∈ pre, x < t - period) →
      calls.length ≤ maxCalls →
      (∀ t1, (pre ++ calls).countP (rlInWindow period t1) ≤ maxCalls) →
      ∀ t1, ((pre ++ calls ++ (rlRun maxCalls period calls t inputs).2.1).countP
          (rlInWindow period t1)) ≤ maxCalls := by
  intro inputs
  induction inputs with
  | nil =>
    intro calls t pre _ _ _ hpast t1
    simpa [rlRun] using hpast t1
  | cons p rest ih =>
    obtain ⟨now, now2⟩ := p
    intro calls t pre hok hpre hlen hpast t1
    obtain ⟨⟨ht, hnn, hsleep⟩, hrest⟩ := hok
    obtain ⟨d1, hd1, hd1lt⟩ := rlPurge_decomp period now calls
    by_cases hbr : maxCalls ≤ (rlPurge period now calls).length
    · -- limit reached: sleep, re-purge at now2, record now2
      have hc1len : (rlPurge period now calls).length ≤ calls.length :=
        rlPurge_length_le period now calls
      obtain ⟨h0, c1t, hc⟩ :
          ∃ h0 c1t, rlPurge period now calls = h0 :: c1t := by
        cases hcc : rlPurge period now calls with
        | nil => rw [hcc] at hbr; simp at hbr; omega
        | cons a as => exact ⟨a, as, rfl⟩
      have hhead : h0 + period + 1 / 10 ≤ now2 := by
        have := hsleep hbr h0 (by rw [hc]; rfl)
        linarith
      have hh0 : h0 < now2 - period := by linarith
      obtain ⟨d2, hd2, hd2lt⟩ :=
        rlPurge_decomp period now2 (rlPurge period now calls)
      have hc2len : (rlPurge period now2 (rlPurge period now calls)).length + 1 ≤
          maxCalls := by
        have h1 : rlPurge period now2 (rlPurge period now calls) =
            rlPurge period now2 c1t := by rw [hc]; simp [rlPurge, hh0]
        have h4 : (rlPurge period now2 (rlPurge period now calls)).length =
            (rlPurge period now2 c1t).length := by rw [h1]
        have h2 := rlPurge_length_le period now2 c1t
        have h3 : c1t.length + 1 = (rlPurge period now calls).length := by
          rw [hc]; simp
        omega
      have hw : waitIfNeeded maxCalls period calls now now2 =
          (rlPurge period now2 (rlPurge period now calls) ++ [now2], now2) := by
        simp [waitIfNeeded, hbr]
      have hcp : ∀ q : ℚ → Bool, calls.countP q =
          d1.countP q + d2.countP q +
            (rlPurge period now2 (rlPurge period now calls)).countP q := by
        intro q
        have s1 : calls.countP q =
            d1.countP q + (rlPurge period now calls).countP q := by
          conv_lhs => rw [hd1]
          simp [List.countP_append]
        have s2 : (rlPurge period now calls).countP q =
            d2.countP q +
              (rlPurge period now2 (rlPurge period now calls)).countP q := by
          conv_lhs => rw [hd2]
          simp [List.countP_append]
        omega
      have hpre2 : ∀ x ∈ (pre ++ d1) ++ d2, x < now2 - period := by
        intro x hx
        rcases List.mem_append.mp hx with hx | hx
        · rcases List.mem_append.mp hx with hx | hx
          · have := hpre x hx; linarith
          · have := hd1lt x hx; linarith
        · exact hd2lt x hx
      have hpast2 : ∀ t2,
          (((pre ++ d1) ++ d2) ++
            (rlPurge period now2 (rlPurge period now calls) ++ [now2])).countP
            (rlInWindow period t2) ≤ maxCalls := by
        intro t2
        have hcle :
            (rlPurge period now2 (rlPurge period now calls)).countP
              (rlInWindow period t2) ≤
            (rlPurge period now2 (rlPurge period now calls)).length :=
          List.countP_le_length _
        by_cases hwin : rlInWindow period t2 now2 = true
        · have hz0 : ((pre ++ d1) ++ d2).countP (rlInWindow period t2) = 0 :=
            List.countP_eq_zero.mpr (by
              intro a ha
              simp [rlInWindow_false_of_lt hwin (hpre2 a ha)])
          have hite : (if rlInWindow period t2 now2 = true then 1 else 0) = 1 := by
            simp [hwin]
          simp only [List.countP_append] at hz0
          simp only [List.countP_append, List.countP_cons, List.countP_nil]
          omega
        · have hite : (if rlInWindow period t2 now2 = true then 1 else 0) = 0 := by
            simp [hwin]
          have hp := hpast t2
          have hq := hcp (rlInWindow period t2)
          simp only [List.countP_append] at hp
          simp only [List.countP_append, List.countP_cons, List.countP_nil]
          omega
      have hrec := ih (rlPurge period now2 (rlPurge period now calls) ++ [now2])
        now2 ((pre ++ d1) ++ d2) (by rw [hw] at hrest; exact hrest) hpre2
        (by simpa using hc2len) hpast2 t1
      have hrun : (rlRun maxCalls period calls t ((now, now2) :: rest)).2.1 =
          now2 :: (rlRun maxCalls period
            (rlPurge period now2 (rlPurge period now calls) ++ [now2]) now2
            rest).2.1 := by
        simp [rlRun, hw]
      rw [hrun]
      have hq := hcp (rlInWindow period t1)
      simp only [List.countP_append, List.countP_cons] at hrec ⊢
      omega
    · -- under the limit: record now immediately
      have hc1lt : (rlPurge period now calls).length < maxCalls :=
        Nat.lt_of_not_le hbr
      have hw : waitIfNeeded maxCalls period calls now now2 =
          (rlPurge period now calls ++ [now], now) := by
        simp [waitIfNeeded, hbr]
      have hcp : ∀ q : ℚ → Bool, calls.countP q =
          d1.countP q + (rlPurge period now calls).countP q := by
        intro q
        conv_lhs => rw [hd1]
        simp [List.countP_append]
      have hpre2 : ∀ x ∈ pre ++ d1, x < now - period := by
        intro x hx
        rcases List.mem_append.mp hx with hx | hx
        · have := hpre x hx; linarith
        · exact hd1lt x hx
      have hpast2 : ∀ t2,
          ((pre ++ d1) ++ (rlPurge period now calls ++ [now])).countP
            (rlInWindow period t2) ≤ maxCalls := by
        intro t2
        have hcle : (rlPurge period now calls).countP (rlInWindow period t2) ≤
            (rlPurge period now calls).length := List.countP_le_length _
        by_cases hwin : rlInWindow period t2 now = true
        · have hz0 : (pre ++ d1).countP (rlInWindow period t2) = 0 :=
            List.countP_eq_zero.mpr (by
              intro a ha
              simp [rlInWindow_false_of_lt hwin (hpre2 a ha)])
          have hite : (if rlInWindow period t2 now = true then 1 else 0) = 1 := by
            simp [hwin]
          simp only [List.countP_append] at hz0
          simp only [List.countP_append, List.countP_cons, List.countP_nil]
          omega
        · have hite : (if rlInWindow period t2 now = true then 1 else 0) = 0 := by
            simp [hwin]
          have hp := hpast t2
          have hq := hcp (rlInWindow period t2)
          simp only [List.countP_append] at hp
          simp only [List.countP_append, List.countP_cons, List.countP_nil]
          omega
      have hrec := ih (rlPurge period now calls ++ [now]) now (pre ++ d1)
        (by rw [hw] at hrest; exact hrest) hpre2 (by simp; omega) hpast2 t1
      have hrun : (rlRun maxCalls period calls t ((now, now2) :: rest)).2.1 =
          now :: (rlRun maxCalls period
            (rlPurge period now calls ++ [now]) now rest).2.1 := by
        simp [rlRun, hw]
      rw [hrun]
      have hq := hcp (rlInWindow period t1)
      simp only [List.countP_append, List.countP_cons] at hrec ⊢
      omega

/-- C4: for every execution of the RateLimiter with ceiling `maxCalls ≥ 1`
and window length `period`, over any admissible trace of invocations
(clock readings move forward and `time.sleep` suspends at least as long as
requested), every sliding window of length `period` contains at most
`maxCalls` of the timestamps recorded by `wait_if_needed`. -/
theorem rateLimiter_sliding_window_bound (maxCalls : ℕ) (period : ℚ)
    (tstart : ℚ) (inputs : List (ℚ × ℚ)) (hN : 1 ≤ maxCalls)
    (hok : rlRunOk maxCalls period [] tstart inputs) :
    ∀ t1, ((rlRun maxCalls period [] tstart inputs).2.1.countP
      (rlInWindow period t1)) ≤ maxCalls := by
  intro t1
  have h := rlRun_invariant maxCalls period hN inputs [] tstart [] hok
    (by simp) (by simp) (by simp [rlInWindow]) t1
  simpa using h

theorem rateLimiter_sliding_window_bound_witness :
    ((rlRun 1 60 [] 0 [(1, 1), (70, 70)]).2.1.countP (rlInWindow 60 0)) ≤ 1 :=
  rateLimiter_sliding_window_bound 1 60 0 [(1, 1), (70, 70)] (le_refl 1)
    (by norm_num [rlRunOk, rlStepOk, waitIfNeeded, rlPurge]) 0

/-! ## Category configuration and keyword tier

`EmailCategory` and the `DEFAULT_CATEGORIES` tables of
scripts/email_classifier.py and scripts/email_classifier_optimized.py
(dicts in insertion order; the two files differ in folder paths and in the
keyword tier's weight/cap constants). -/

structure EmailCategory where
  name : String
  folder : String
  keywords : List String
  confidence_threshold : ℚ
  priority : ℕ
  description : String
deriving DecidableEq

def DEFAULT_CATEGORIES_PLAIN : List EmailCategory :=
  [⟨"SPAM", "Spam",
    ["unsubscribe", "click here", "limited time", "act now", "free money"],
    7/10, 1, "Emails non sollicités et publicités"⟩,
   ⟨"VENTE", "Achats",
    ["solde", "promo", "offrir", "%", "commander", "panier", "livraison", "code promo"],
    65/100, 2, "Emails commerciaux et offres d'achat"⟩,
   ⟨"BANQUE", "Administratif/Banque",
    ["virement", "compte", "banque", "facture", "paiement", "transaction", "solde"],
    8/10, 3, "Emails bancaires et administratifs"⟩,
   ⟨"PRO", "Travail",
    ["réunion", "projet", "client", "deadline", "rapport", "présentation", "meeting"],
    7/10, 4, "Emails professionnels"⟩,
   ⟨"URGENT", "À traiter",
    ["urgent", "asap", "important", "action requise", "immédiat"],
    75/100, 5, "Emails marqués comme urgents"⟩,
   ⟨"VOYAGES", "Voyages",
    ["billet", "train", "vol", "booking", "hôtel", "réservation", "itinéraire"],
    7/10, 2, "Confirmations et informations de voyage"⟩,
   ⟨"SOCIAL", "Réseaux sociaux",
    ["like", "comment", "follow", "share", "mention", "notification", "friend request"],
    65/100, 1, "Notifications des réseaux sociaux"⟩,
   ⟨"NEWSLETTER", "Newsletters",
    ["newsletter", "weekly", "monthly", "digest", "subscribe", "unsubscribe"],
    7/10, 1, "Newsletters et digests"⟩]

def DEFAULT_CATEGORIES_OPT : List EmailCategory :=
  [⟨"SPAM", "Spam",
    ["unsubscribe", "click here", "limited time", "act now", "free money"],
    7/10, 1, "Emails non sollicités et publicités"⟩,
   ⟨"VENTE", "Folders/Achats",
    ["solde", "promo", "offrir", "%", "commander", "panier", "livraison", "code promo"],
    65/100, 2, "Emails commerciaux et offres d'achat"⟩,
   ⟨"BANQUE", "Folders/Administratif/Banque",
    ["virement", "compte", "banque", "facture", "paiement", "transaction", "solde"],
    8/10, 3, "Emails bancaires et administratifs"⟩,
   ⟨"PRO", "Folders/Travail",
    ["réunion", "projet", "client", "deadline", "rapport", "présentation", "meeting"],
    7/10, 4, "Emails professionnels"⟩,
   ⟨"URGENT", "Folders/A_traiter",
    ["urgent", "asap", "important", "action requise", "immédiat"],
    75/100, 5, "Emails marqués comme urgents"⟩,
   ⟨"VOYAGES", "Folders/Voyages",
    ["billet", "train", "vol", "booking", "hôtel", "réservation", "itinéraire"],
    7/10, 2, "Confirmations et informations de voyage"⟩,
   ⟨"SOCIAL", "Folders/Reseaux_sociaux",
    ["like", "comment", "follow", "share", "mention", "notification", "friend request"],
    65/100, 1, "Notifications des réseaux sociaux"⟩,
   ⟨"NEWSLETTER", "Folders/Newsletters",
    ["newsletter", "weekly", "monthly", "digest", "subscribe", "unsubscribe"],
    7/10, 1, "Newsletters et digests"⟩]

/-- `content = f"{subject} {body}".lower()` of `classify_with_keywords`. -/
def kwContent (subject body : String) : String :=
  pyLower (subject ++ " " ++ body)

/-- `matches = sum(1 for keyword in category.keywords if keyword.lower() in content)`. -/
def kwMatches (content : String) (cat : EmailCategory) : ℕ :=
  cat.keywords.countP (fun keyword => containsSub content (pyLower keyword))

/-- `confidence = min(cap, (matches / max(len(keywords), 1)) * weight)`;
weight/cap are 0.8/0.99 in email_classifier.py and 0.85/0.95 in
email_classifier_optimized.py. -/
def kwScore (weight cap : ℚ) (content : String) (cat : EmailCategory) : ℚ :=
  min cap ((kwMatches content cat : ℚ) /
    ((max cat.keywords.length 1 : ℕ) : ℚ) * weight)

/-- The `scores` dict of `classify_with_keywords`, in category order. -/
def kwScores (weight cap : ℚ) (cats : List EmailCategory)
    (subject body : String) : List (String × ℚ × String) :=
  cats.filterMap (fun cat =>
    if 0 < kwMatches (kwContent subject body) cat then
      some (cat.name, kwScore weight cap (kwContent subject body) cat,
        toString (kwMatches (kwContent subject body) cat) ++
          " mot(s)-clé trouvé(s)")
    else none)

/-- `EmailClassifier.classify_with_keywords` (scripts/email_classifier.py,
lines 249-272): weight 0.8, cap 0.99, sentinel `("UNKNOWN", 0.0, …)`. -/
def classifyWithKeywordsPlain (cats : List EmailCategory)
    (subject body : String) : String × ℚ × String :=
  match pyMaxBy (fun p => p.2.1) (kwScores (8/10) (99/100) cats subject body) with
  | some best => best
  | none => ("UNKNOWN", 0, "Aucune correspondance")

/-- `EmailClassifierOptimized.classify_with_keywords`
(scripts/email_classifier_optimized.py, lines 297-313): weight 0.85,
cap 0.95, over the module-level `DEFAULT_CATEGORIES`, sentinel
`("SPAM", 0.0, …)`. -/
def classifyWithKeywordsOpt (subject body : String) : String × ℚ × String :=
  match pyMaxBy (fun p => p.2.1)
      (kwScores (85/100) (95/100) DEFAULT_CATEGORIES_OPT subject body) with
  | some best => best
  | none => ("SPAM", 0, "Aucune correspondance")

theorem pyFold_mem (f : α → ℚ) (x : α) (xs : List α) :
    xs.foldl (fun best y => if f y > f best then y else best) x ∈ x :: xs := by
  induction xs generalizing x with
  | nil => simp
  | cons y ys ih =>
    simp only [List.foldl_cons]
    rcases List.mem_cons.mp (ih (if f y > f x then y else x)) with h | h
    · rw [h]
      by_cases hc : f y > f x
      · rw [if_pos hc]
        exact List.mem_cons_of_mem _ (List.mem_cons_self _ _)
      · rw [if_neg hc]
        exact List.mem_cons_self _ _
    · exact List.mem_cons_of_mem _ (List.mem_cons_of_mem _ h)

theorem pyFold_ge_init (f : α → ℚ) (x : α) (xs : List α) :
    f x ≤ f (xs.foldl (fun best y => if f y > f best then y else best) x) := by
  induction xs generalizing x with
  | nil => simp
  | cons y ys ih =>
    simp only [List.foldl_cons]
    refine le_trans ?_ (ih (if f y > f x then y else x))
    by_cases hc : f y > f x
    · simp [if_pos hc, le_of_lt hc]
    · simp [if_neg hc]

theorem pyFold_ge_mem (f : α → ℚ) (x : α) (xs : List α) :
    ∀ z ∈ xs, f z ≤ f (xs.foldl (fun best y => if f y > f best then y else best) x) := by
  induction xs generalizing x with
  | nil => simp
  | cons y ys ih =>
    intro z hz
    simp only [List.foldl_cons]
    rcases List.mem_cons.mp hz with rfl | hz
    · refine le_trans ?_ (pyFold_ge_init f (if f z > f x then z else x) ys)
      by_cases hc : f z > f x
      · simp [if_pos hc]
      · simp only [if_neg hc]
        exact le_of_not_lt hc
    · exact ih (if f y > f x then y else x) z hz

theorem pyMaxBy_spec (f : α → ℚ) (l : List α) (b : α)
    (h : pyMaxBy f l = some b) : b ∈ l ∧ ∀ y ∈ l, f y ≤ f b := by
  cases l with
  | nil => simp [pyMaxBy] at h
  | cons x xs =>
    simp only [pyMaxBy, Option.some.injEq] at h
    subst h
    refine ⟨pyFold_mem f x xs, ?_⟩
    intro y hy
    rcases List.mem_cons.mp hy with rfl | hy
    · exact pyFold_ge_init f y xs
    · exact pyFold_ge_mem f x xs y hy

theorem kwScore_eq (weight cap : ℚ) (hw0 : 0 ≤ weight) (hwc : weight ≤ cap)
    (hc99 : cap ≤ 99/100) (content : String) (cat : EmailCategory) :
    kwScore weight cap content cat =
      min (99/100 : ℚ) ((kwMatches content cat : ℚ) /
        ((max cat.keywords.length 1 : ℕ) : ℚ) * weight) := by
  have hm : (kwMatches content cat : ℚ) ≤
      ((max cat.keywords.length 1 : ℕ) : ℚ) := by
    have : kwMatches content cat ≤ cat.keywords.length :=
      List.countP_le_length _
    exact_mod_cast le_trans this (le_max_left _ _)
  have hden : (0 : ℚ) < ((max cat.keywords.length 1 : ℕ) : ℚ) := by
    exact_mod_cast Nat.lt_of_lt_of_le Nat.zero_lt_one (le_max_right _ _)
  have h1 : (kwMatches content cat : ℚ) /
      ((max cat.keywords.length 1 : ℕ) : ℚ) ≤ 1 :=
    div_le_one_of_le hm (le_of_lt hden)
  have h0 : (0 : ℚ) ≤ (kwMatches content cat : ℚ) /
      ((max cat.keywords.length 1 : ℕ) : ℚ) :=
    div_nonneg (by positivity) (le_of_lt hden)
  have hx : (kwMatches content cat : ℚ) /
      ((max cat.keywords.length 1 : ℕ) : ℚ) * weight ≤ weight := by
    nlinarith
  unfold kwScore
  rw [min_eq_right (le_trans hx hwc),
    min_eq_right (le_trans hx (le_trans hwc hc99))]

/-- C6: in both keyword tiers, a category with at least one matching keyword
scores exactly `min(0.99, matches / keyword-count * weight)` (the lower caps
0.99 resp. 0.95 never bind since the weights are 0.8 resp. 0.85); the entry
with the highest score wins, ties keeping Python `max`'s first maximum; and
when no category matches at all, the tier returns its zero-confidence
no-match sentinel. -/
theorem keyword_tier_formula_and_winner (subject body : String) :
    (∀ cats cat, cat ∈ cats → 0 < kwMatches (kwContent subject body) cat →
      (cat.name,
        min (99/100 : ℚ) ((kwMatches (kwContent subject body) cat : ℚ) /
          ((max cat.keywords.length 1 : ℕ) : ℚ) * (8/10)),
        toString (kwMatches (kwContent subject body) cat) ++
          " mot(s)-clé trouvé(s)")
        ∈ kwScores (8/10) (99/100) cats subject body) ∧
    (∀ cat, cat ∈ DEFAULT_CATEGORIES_OPT →
      0 < kwMatches (kwContent subject body) cat →
      (cat.name,
        min (99/100 : ℚ) ((kwMatches (kwContent subject body) cat : ℚ) /
          ((max cat.keywords.length 1 : ℕ) : ℚ) * (85/100)),
        toString (kwMatches (kwContent subject body) cat) ++
          " mot(s)-clé trouvé(s)")
        ∈ kwScores (85/100) (95/100) DEFAULT_CATEGORIES_OPT subject body) ∧
    (∀ weight cap cats best,
      pyMaxBy (fun p => p.2.1) (kwScores weight cap cats subject body) =
        some best →
      best ∈ kwScores weight cap cats subject body ∧
        ∀ e ∈ kwScores weight cap cats subject body, e.2.1 ≤ best.2.1) ∧
    (∀ cats, (∀ cat ∈ cats, kwMatches (kwContent subject body) cat = 0) →
      classifyWithKeywordsPlain cats subject body =
        ("UNKNOWN", 0, "Aucune correspondance")) ∧
    ((∀ cat ∈ DEFAULT_CATEGORIES_OPT,
        kwMatches (kwContent subject body) cat = 0) →
      classifyWithKeywordsOpt subject body =
        ("SPAM", 0, "Aucune correspondance")) := by
  refine ⟨?_, ?_, ?_, ?_, ?_⟩
  · intro cats cat hc hm
    refine List.mem_filterMap.mpr ⟨cat, hc, ?_⟩
    rw [if_pos hm, kwScore_eq (8/10) (99/100) (by norm_num) (by norm_num)
      (by norm_num)]
  · intro cat hc hm
    refine List.mem_filterMap.mpr ⟨cat, hc, ?_⟩
    rw [if_pos hm, kwScore_eq (85/100) (95/100) (by norm_num) (by norm_num)
      (by norm_num)]
  · intro weight cap cats best hb
    exact pyMaxBy_spec _ _ _ hb
  · intro cats hz
    have hnil : kwScores (8/10) (99/100) cats subject body = [] := by
      refine List.filterMap_eq_nil.mpr ?_
      intro cat hc
      rw [if_neg]
      simp [hz cat hc]
    unfold classifyWithKeywordsPlain
    rw [hnil]
    rfl
  · intro hz
    have hnil : kwScores (85/100) (95/100) DEFAULT_CATEGORIES_OPT subject
        body = [] := by
      refine List.filterMap_eq_nil.mpr ?_
      intro cat hc
      rw [if_neg]
      simp [hz cat hc]
    unfold classifyWithKeywordsOpt
    rw [hnil]
    rfl

theorem keyword_tier_formula_and_winner_witness :
    classifyWithKeywordsPlain DEFAULT_CATEGORIES_PLAIN "zzz" "zzz" =
      ("UNKNOWN", 0, "Aucune correspondance") :=
  (keyword_tier_formula_and_winner "zzz" "zzz").2.2.2.1 DEFAULT_CATEGORIES_PLAIN
    (by decide)

/-! ## Optimized classifier pipeline (scripts/email_classifier_optimized.py)

The md5 hash, the HTTP transport and the JSON parse are external
boundaries, modelled as an opaque-to-the-logic hash function parameter and
an oracle response per batch (`ApiResp`: a raised transport/parse
exception, or a status code with a body that either fails `json.loads`
or yields a list of items). -/

/-- Python `s.split(sep)` for a one-character separator, on `List Char`. -/
def pySplitChar (sep : Char) : List Char → List (List Char)
  | [] => [[]]
  | c :: cs =>
    match pySplitChar sep cs with
    | [] => [[]]
    | h :: t => if c = sep then [] :: h :: t else (c :: h) :: t

/-- Python `s.split(sep)` on strings. -/
def pySplit (sep : Char) (s : String) : List String :=
  (pySplitChar sep s.data).map (fun l => ⟨l⟩)

/-- Python `s[:n]`. -/
def pyTake (n : ℕ) (s : String) : String :=
  ⟨s.data.take n⟩

/-- `EmailClassifierOptimized._compute_email_hash`: md5 of
`domain + ":" + subject.lower()[:50]`, with `hashFn` standing for md5. -/
def computeEmailHash (hashFn : String → String)
    (from_address subject : String) : String :=
  let domain := if containsSub from_address "@" then
    (pySplit '@' from_address).getLast! else from_address
  hashFn (domain ++ ":" ++ pyTake 50 (pyLower subject))

structure ClassificationResultOpt where
  email_id : String
  subject : String
  category : String
  confidence : ℚ
  method : String
  timestamp : String
  explanation : String
  from_address : String
deriving DecidableEq

structure CachedPattern where
  email_hash : String
  category : String
  confidence : ℚ
  hit_count : ℕ
  last_used : String
  from_domain : String
deriving DecidableEq

structure EmailIn where
  email_id : String
  subject : String
  body : String
  fromA : String
deriving DecidableEq

inductive ApiBody (α : Type) : Type
  | malformed : ApiBody α
  | parsed : List α → ApiBody α
deriving DecidableEq

inductive ApiResp (α : Type) : Type
  | exnTransport : ApiResp α
  | ok : ℕ → ApiBody α → ApiResp α
deriving DecidableEq

/-- One entry of the JSON array returned to `_classify_batch_api`
(`item.get("email_index", 0)`, `item.get("category", "SPAM")`, …). -/
structure OptApiItem where
  email_index : Option ℕ
  category : Option String
  confidence : ℚ
  explanation : String
deriving DecidableEq

/-- One entry of the JSON array returned to `BatchClassifier.classify_batch`
(`item["email_id"]` is a mandatory key there). -/
structure BatchApiItem where
  email_id : String
  category : Option String
  confidence : ℚ
  explanation : String
deriving DecidableEq

abbrev OptCache := List (String × CachedPattern)

/-- The per-item body of `_classify_batch_api`'s result loop
(scripts/email_classifier_optimized.py, lines 464-499): out-of-range
indices are skipped, the declared category is uppercased and, when it is
not in `valid_categories`, replaced by `"SPAM"` at confidence 0.3. -/
def processApiItem (validCats : List String)
    (emailsWithHash : List (EmailIn × String)) (nowS : String)
    (item : OptApiItem) : Option (ClassificationResultOpt × String) :=
  let idx := item.email_index.getD 0
  match emailsWithHash.get? idx with
  | none => none
  | some (email, ehash) =>
    let category0 := pyUpper (item.category.getD "SPAM")
    let cc : String × ℚ :=
      if category0 ∉ validCats then ("SPAM", 3/10)
      else (category0, item.confidence)
    let r : ClassificationResultOpt :=
      { email_id := email.email_id, subject := email.subject,
        category := cc.1, confidence := cc.2, method := "batch_api",
        timestamp := nowS, explanation := item.explanation,
        from_address := email.fromA }
    some (r, ehash)

/-- `EmailClassifierOptimized._classify_batch_api`: empty input, a missing
API key, a transport/parse exception, a non-200 status or an unparsable
body all yield the empty result list; otherwise each parsed item is
validated locally and cached. -/
def classifyBatchApiOpt (hasKey : Bool) (resp : ApiResp OptApiItem)
    (nowS : String) (cache : OptCache)
    (emailsWithHash : List (EmailIn × String)) :
    List ClassificationResultOpt × OptCache :=
  if emailsWithHash.isEmpty then ([], cache)
  else if ¬hasKey then ([], cache)
  else
    match resp with
    | .exnTransport => ([], cache)
    | .ok status body =>
      if status = 200 then
        match body with
        | .malformed => ([], cache)
        | .parsed items =>
          items.foldl (fun acc item =>
            match processApiItem (DEFAULT_CATEGORIES_OPT.map (·.name))
                emailsWithHash nowS item with
            | none => acc
            | some (r, ehash) =>
              (acc.1 ++ [r], dictSet acc.2 ehash
                { email_hash := ehash, category := r.category,
                  confidence := r.confidence, hit_count := 1,
                  last_used := nowS,
                  from_domain := (pySplit '@' r.from_address).getLast! }))
            ([], cache)
      else ([], cache)

/-- External inputs of one `classify_batch` call: the hash function (md5),
the API availability flags, the timestamp string, and the service's
response for each submitted batch. -/
structure OptCfg where
  hashFn : String → String
  useApi : Bool
  hasKey : Bool
  nowS : String
  resp : List (EmailIn × String) → ApiResp OptApiItem

/-- Step 1 of `EmailClassifierOptimized.classify_batch`: serve from cache,
else keywords at confidence ≥ 0.75 (also caching the answer), else defer
to the API batch list. -/
def classifyBatchPhase1 (cfg : OptCfg) :
    OptCache → List ClassificationResultOpt → List (EmailIn × String) →
    List EmailIn →
    OptCache × List ClassificationResultOpt × List (EmailIn × String)
  | cache, results, apiNeeded, [] => (cache, results, apiNeeded)
  | cache, results, apiNeeded, e :: rest =>
    let h := computeEmailHash cfg.hashFn e.fromA e.subject
    match dictGet cache h with
    | some pat =>
      let pat2 : CachedPattern :=
        { pat with hit_count := pat.hit_count + 1, last_used := cfg.nowS }
      let r : ClassificationResultOpt :=
        { email_id := e.email_id, subject := e.subject,
          category := pat.category, confidence := pat.confidence,
          method := "cached", timestamp := cfg.nowS,
          explanation := "Cache hit #" ++ toString pat2.hit_count,
          from_address := e.fromA }
      classifyBatchPhase1 cfg (dictSet cache h pat2) (results ++ [r])
        apiNeeded rest
    | none =>
      let k := classifyWithKeywordsOpt e.subject e.body
      if k.2.1 ≥ 3/4 then
        let r : ClassificationResultOpt :=
          { email_id := e.email_id, subject := e.subject, category := k.1,
            confidence := k.2.1, method := "keyword", timestamp := cfg.nowS,
            explanation := k.2.2, from_address := e.fromA }
        let pat : CachedPattern :=
          { email_hash := h, category := k.1, confidence := k.2.1,
            hit_count := 1, last_used := cfg.nowS,
            from_domain := (pySplit '@' e.fromA).getLast! }
        classifyBatchPhase1 cfg (dictSet cache h pat) (results ++ [r])
          apiNeeded rest
      else
        classifyBatchPhase1 cfg cache results (apiNeeded ++ [(e, h)]) rest

/-- `EmailClassifierOptimized.classify_batch` (lines 315-391): phase 1,
then batches of 15 through `_classify_batch_api` when the API is in use. -/
def classifyBatchOpt (cfg : OptCfg) (cache : OptCache)
    (emails : List EmailIn) :
    List ClassificationResultOpt × OptCache :=
  let p := classifyBatchPhase1 cfg cache [] [] emails
  if p.2.2 ≠ [] ∧ cfg.useApi then
    (chunks 15 p.2.2).foldl (fun acc b =>
      let r := classifyBatchApiOpt cfg.hasKey (cfg.resp b) cfg.nowS acc.2 b
      (acc.1 ++ r.1, r.2)) (p.2.1, p.1)
  else (p.2.1, p.1)

/-- `EmailClassifierOptimized.classify` (lines 515-533): single-email
wrapper over `classify_batch`; an empty result list falls back to
`("SPAM", 0.0, "fallback")`. -/
def classifyOpt (cfg : OptCfg) (cache : OptCache)
    (email_id subject body from_address : String) : ClassificationResultOpt :=
  match (classifyBatchOpt cfg cache
      [⟨email_id, subject, body, from_address⟩]).1 with
  | r :: _ => r
  | [] =>
    { email_id := email_id, subject := subject, category := "SPAM",
      confidence := 0, method := "fallback", timestamp := cfg.nowS,
      explanation := "Erreur classification", from_address := from_address }

structure BatchResultEntry where
  category : String
  confidence : ℚ
  explanation : String
deriving DecidableEq

/-- `BatchClassifier.classify_batch` (scripts/email_classifier_batch.py,
lines 136-238): missing key, transport/parse error or non-200 yield the
empty dict; a parsed response is keyed by `email_id` with the declared
category uppercased and NOT checked against `valid_categories`. -/
def batchClassifyBatch (hasKey : Bool) (resp : ApiResp BatchApiItem) :
    List (String × BatchResultEntry) :=
  if ¬hasKey then []
  else
    match resp with
    | .exnTransport => []
    | .ok status body =>
      if status ≠ 200 then []
      else
        match body with
        | .malformed => []
        | .parsed items =>
          items.foldl (fun d item => dictSet d item.email_id
            ⟨pyUpper (item.category.getD "SPAM"), item.confidence,
              item.explanation⟩) []

structure ClassificationResultPlain where
  email_id : String
  subject : String
  category : String
  confidence : ℚ
  method : String
  timestamp : String
  explanation : String
deriving DecidableEq

/-- `EmailClassifier.classify` (scripts/email_classifier.py, lines
274-324): Lumo tier (its outcome `lumoOut` is an oracle; a failed call
yields `(none, 0, "")`), then the keyword tier when Lumo produced nothing
usable, then the `UNKNOWN` fallback when no tier set a category. -/
def classifyPlain (cats : List EmailCategory) (useLumo : Bool)
    (lumoOut : Option String × ℚ × String) (nowS : String)
    (email_id subject body : String) : ClassificationResultPlain :=
  let category0 : Option String := if useLumo then lumoOut.1 else none
  let confidence0 : ℚ := if useLumo then lumoOut.2.1 else 0
  let explanation0 : String := if useLumo then lumoOut.2.2 else ""
  let method0 : String :=
    if useLumo ∧ lumoOut.1.isSome ∧ lumoOut.2.1 ≥ 1/2 then "lumo"
    else "fallback"
  let kw := classifyWithKeywordsPlain cats subject body
  let take2 : Bool :=
    decide ((category0.isNone ∨ confidence0 < 1/2) ∧ kw.2.1 > confidence0)
  let category1 := if take2 then some kw.1 else category0
  let confidence1 := if take2 then kw.2.1 else confidence0
  let explanation1 := if take2 then kw.2.2 else explanation0
  let method1 := if take2 then "keyword" else method0
  { email_id := email_id, subject := subject,
    category := if category1.isNone then "UNKNOWN" else category1.getD "UNKNOWN",
    confidence := if category1.isNone then 0 else confidence1,
    method := if category1.isNone then "fallback" else method1,
    timestamp := nowS, explanation := explanation1 }

/-- The failure modes of one remote batch call: missing API key, raised
transport/parse exception, non-200 status, or a body `json.loads` rejects. -/
def apiRespFails {α : Type} (hasKey : Bool) (resp : ApiResp α) : Prop :=
  hasKey = false ∨ resp = ApiResp.exnTransport ∨
    ∃ status body, resp = ApiResp.ok status body ∧
      (status ≠ 200 ∨ body = ApiBody.malformed)

theorem batchClassifyBatch_empty_of_fails (hasKey : Bool)
    (resp : ApiResp BatchApiItem) (h : apiRespFails hasKey resp) :
    batchClassifyBatch hasKey resp = [] := by
  rcases h with h | h | ⟨st, bd, rfl, h2⟩
  · simp [batchClassifyBatch, h]
  · subst h
    cases hasKey <;> simp [batchClassifyBatch]
  · cases hasKey with
    | false => simp [batchClassifyBatch]
    | true =>
      rcases h2 with h2 | h2
      · simp [batchClassifyBatch, h2]
      · subst h2
        by_cases hst : st = 200 <;> simp [batchClassifyBatch, hst]

theorem classifyBatchApiOpt_empty_of_fails (hasKey : Bool)
    (resp : ApiResp OptApiItem) (nowS : String) (cache : OptCache)
    (ewh : List (EmailIn × String)) (h : apiRespFails hasKey resp) :
    (classifyBatchApiOpt hasKey resp nowS cache ewh).1 = [] := by
  rcases h with h | h | ⟨st, bd, rfl, h2⟩
  · by_cases he : ewh.isEmpty <;> simp [classifyBatchApiOpt, he, h]
  · subst h
    cases hasKey <;> by_cases he : ewh.isEmpty <;>
      simp [classifyBatchApiOpt, he]
  · cases hasKey with
    | false => by_cases he : ewh.isEmpty <;> simp [classifyBatchApiOpt, he]
    | true =>
      rcases h2 with h2 | h2
      · by_cases he : ewh.isEmpty <;> simp [classifyBatchApiOpt, he, h2]
      · subst h2
        by_cases he : ewh.isEmpty <;> by_cases hst : st = 200 <;>
          simp [classifyBatchApiOpt, he, hst]

/-- C9: on a transport failure, a non-200 response, or a malformed or
un-parseable response body (and likewise a missing API key), both remote
batch classification entry points return an empty map: no per-message
category is assigned and no error propagates. -/
theorem remote_batch_failure_returns_empty :
    (∀ (hasKey : Bool) (resp : ApiResp BatchApiItem),
      apiRespFails hasKey resp → batchClassifyBatch hasKey resp = []) ∧
    (∀ (hasKey : Bool) (resp : ApiResp OptApiItem) (nowS : String)
        (cache : OptCache) (ewh : List (EmailIn × String)),
      apiRespFails hasKey resp →
      (classifyBatchApiOpt hasKey resp nowS cache ewh).1 = []) :=
  ⟨batchClassifyBatch_empty_of_fails, classifyBatchApiOpt_empty_of_fails⟩

theorem remote_batch_failure_returns_empty_witness :
    batchClassifyBatch true (ApiResp.ok 500 (ApiBody.parsed [])) = [] :=
  remote_batch_failure_returns_empty.1 true (ApiResp.ok 500 (ApiBody.parsed []))
    (Or.inr (Or.inr ⟨500, ApiBody.parsed [], rfl, Or.inl (by decide)⟩))

/-- C1 counterexample: a batch response entry declaring the out-of-set
category `"MARKETING"` is NOT handed back as `UNKNOWN` with confidence 0:
the optimized path rewrites it to `SPAM` at confidence 0.3, and
`BatchClassifier.classify_batch` hands `"MARKETING"` back entirely
unvalidated. -/
theorem batch_invalid_category_counterexample :
    ((classifyBatchApiOpt true
        (ApiResp.ok 200 (ApiBody.parsed [⟨some 0, some "MARKETING", 9/10, "e"⟩]))
        "ts" [] [(⟨"id1", "s", "b", "a@b.com"⟩, "h0")]).1.map
      (fun r => (r.category, r.confidence)) = [("SPAM", 3/10)]) ∧
    ("SPAM", (3 : ℚ)/10) ≠ ("UNKNOWN", (0 : ℚ)) ∧
    (dictGet (batchClassifyBatch true
        (ApiResp.ok 200 (ApiBody.parsed [⟨"id1", some "MARKETING", 9/10, "e"⟩])))
      "id1" = some ⟨"MARKETING", 9/10, "e"⟩) := by
  refine ⟨rfl, fun h => absurd (congrArg Prod.fst h) (by decide), rfl⟩

/-- C1 amended: in `_classify_batch_api` an entry whose declared (uppercased)
category is outside the configured category set is replaced by `SPAM` at
confidence 0.3 — never accepted as-is, and every category that path hands
back is in the configured set — while `BatchClassifier.classify_batch`
performs no validation at all and hands back the declared category
verbatim (uppercased). -/
theorem batch_invalid_category_normalization :
    (∀ (ewh : List (EmailIn × String)) (nowS : String) (item : OptApiItem)
        (r : ClassificationResultOpt) (ehash : String),
      processApiItem (DEFAULT_CATEGORIES_OPT.map (·.name)) ewh nowS item =
        some (r, ehash) →
      pyUpper (item.category.getD "SPAM") ∉
        DEFAULT_CATEGORIES_OPT.map (·.name) →
      r.category = "SPAM" ∧ r.confidence = 3/10) ∧
    (∀ (ewh : List (EmailIn × String)) (nowS : String) (item : OptApiItem)
        (r : ClassificationResultOpt) (ehash : String),
      processApiItem (DEFAULT_CATEGORIES_OPT.map (·.name)) ewh nowS item =
        some (r, ehash) →
      r.category ∈ DEFAULT_CATEGORIES_OPT.map (·.name)) ∧
    (∀ (item : BatchApiItem),
      batchClassifyBatch true (ApiResp.ok 200 (ApiBody.parsed [item])) =
        [(item.email_id, ⟨pyUpper (item.category.getD "SPAM"),
          item.confidence, item.explanation⟩)]) := by
  refine ⟨?_, ?_, ?_⟩
  · intro ewh nowS item r ehash hp hnv
    simp only [processApiItem] at hp
    cases hg : ewh.get? (item.email_index.getD 0) with
    | none => rw [hg] at hp; simp at hp
    | some pair =>
      rw [hg] at hp
      obtain ⟨email, ehash0⟩ := pair
      simp only [Option.some.injEq, Prod.mk.injEq] at hp
      rw [if_pos hnv] at hp
      obtain ⟨hr, _⟩ := hp
      subst hr
      exact ⟨rfl, rfl⟩
  · intro ewh nowS item r ehash hp
    simp only [processApiItem] at hp
    cases hg : ewh.get? (item.email_index.getD 0) with
    | none => rw [hg] at hp; simp at hp
    | some pair =>
      rw [hg] at hp
      obtain ⟨email, ehash0⟩ := pair
      simp only [Option.some.injEq, Prod.mk.injEq] at hp
      obtain ⟨hr, _⟩ := hp
      subst hr
      by_cases hnv : pyUpper (item.category.getD "SPAM") ∉
          DEFAULT_CATEGORIES_OPT.map (·.name)
      · rw [if_pos hnv]
        exact (by decide :
          ("SPAM" : String) ∈ DEFAULT_CATEGORIES_OPT.map (fun x => x.name))
      · rw [if_neg hnv]
        exact not_not.mp hnv
  · intro item
    simp [batchClassifyBatch, dictSet, dictGet]

theorem batch_invalid_category_normalization_witness :
    batchClassifyBatch true (ApiResp.ok 200
        (ApiBody.parsed [⟨"id9", some "Marketing", 1/2, "x"⟩])) =
      [("id9", ⟨pyUpper "Marketing", 1/2, "x"⟩)] :=
  batch_invalid_category_normalization.2.2 ⟨"id9", some "Marketing", 1/2, "x"⟩

theorem classifyWithKeywordsPlain_zero (cats : List EmailCategory)
    (subject body : String)
    (hz : ∀ cat ∈ cats, kwMatches (kwContent subject body) cat = 0) :
    classifyWithKeywordsPlain cats subject body =
      ("UNKNOWN", 0, "Aucune correspondance") := by
  have hnil : kwScores (8/10) (99/100) cats subject body = [] := by
    refine List.filterMap_eq_nil.mpr ?_
    intro cat hc
    rw [if_neg]
    simp [hz cat hc]
  unfold classifyWithKeywordsPlain
  rw [hnil]
  rfl

theorem classifyWithKeywordsOpt_zero (subject body : String)
    (hz : ∀ cat ∈ DEFAULT_CATEGORIES_OPT,
      kwMatches (kwContent subject body) cat = 0) :
    classifyWithKeywordsOpt subject body =
      ("SPAM", 0, "Aucune correspondance") := by
  have hnil : kwScores (85/100) (95/100) DEFAULT_CATEGORIES_OPT subject
      body = [] := by
    refine List.filterMap_eq_nil.mpr ?_
    intro cat hc
    rw [if_neg]
    simp [hz cat hc]
  unfold classifyWithKeywordsOpt
  rw [hnil]
  rfl

theorem classifyBatchPhase1_single_miss (cfg : OptCfg) (cache : OptCache)
    (e : EmailIn)
    (hmiss : dictGet cache (computeEmailHash cfg.hashFn e.fromA e.subject) =
      none)
    (hkw : (classifyWithKeywordsOpt e.subject e.body).2.1 < 3/4) :
    classifyBatchPhase1 cfg cache [] [] [e] =
      (cache, [], [(e, computeEmailHash cfg.hashFn e.fromA e.subject)]) := by
  simp only [classifyBatchPhase1, hmiss]
  rw [if_neg (not_le.mpr hkw)]
  simp [classifyBatchPhase1]

theorem classifyBatchOpt_single_empty (cfg : OptCfg) (cache : OptCache)
    (e : EmailIn)
    (hmiss : dictGet cache (computeEmailHash cfg.hashFn e.fromA e.subject) =
      none)
    (hkw : (classifyWithKeywordsOpt e.subject e.body).2.1 < 3/4)
    (hapi : cfg.useApi = false ∨ ∀ b, apiRespFails cfg.hasKey (cfg.resp b)) :
    (classifyBatchOpt cfg cache [e]).1 = [] := by
  have h1 := classifyBatchPhase1_single_miss cfg cache e hmiss hkw
  simp only [classifyBatchOpt, h1]
  rcases hapi with h | h
  · rw [if_neg]
    rintro ⟨_, hu⟩
    rw [h] at hu
    exact absurd hu (by simp)
  · by_cases hu : cfg.useApi
    · rw [if_pos ⟨by simp, hu⟩]
      have hch : chunks 15
          [(e, computeEmailHash cfg.hashFn e.fromA e.subject)] =
          [[(e, computeEmailHash cfg.hashFn e.fromA e.subject)]] := by
        simp [chunks]
      rw [hch]
      simp only [List.foldl_cons, List.foldl_nil]
      rw [classifyBatchApiOpt_empty_of_fails _ _ _ _ _ (h _)]
      rfl
    · rw [if_neg (fun hc => hu hc.2)]

theorem classifyOpt_fallback (cfg : OptCfg) (cache : OptCache)
    (email_id subject body from_address : String)
    (hmiss : dictGet cache
      (computeEmailHash cfg.hashFn from_address subject) = none)
    (hkw : (classifyWithKeywordsOpt subject body).2.1 < 3/4)
    (hapi : cfg.useApi = false ∨ ∀ b, apiRespFails cfg.hasKey (cfg.resp b)) :
    classifyOpt cfg cache email_id subject body from_address =
      { email_id := email_id, subject := subject, category := "SPAM",
        confidence := 0, method := "fallback", timestamp := cfg.nowS,
        explanation := "Erreur classification",
        from_address := from_address } := by
  have h := classifyBatchOpt_single_empty cfg cache
    ⟨email_id, subject, body, from_address⟩ hmiss hkw hapi
  unfold classifyOpt
  rw [h]

theorem classifyPlain_fallback (cats : List EmailCategory) (useLumo : Bool)
    (lumoOut : Option String × ℚ × String) (nowS email_id subject body : String)
    (hl : useLumo = true → lumoOut = (none, 0, ""))
    (hz : ∀ cat ∈ cats, kwMatches (kwContent subject body) cat = 0) :
    classifyPlain cats useLumo lumoOut nowS email_id subject body =
      { email_id := email_id, subject := subject, category := "UNKNOWN",
        confidence := 0, method := "fallback", timestamp := nowS,
        explanation := "" } := by
  have hkw := classifyWithKeywordsPlain_zero cats subject body hz
  cases useLumo with
  | false => simp [classifyPlain, hkw]
  | true =>
    rw [hl rfl] at *
    simp [classifyPlain, hkw]

/-- C5 (amended): when every tier fails (no cache hit, keyword tier below
the 0.75 acceptance bar — in particular zero matches, and no usable remote
answer), `classify` returns confidence 0 and method `fallback`; the
category is `UNKNOWN` in `EmailClassifier.classify` but `SPAM` — not
`UNKNOWN` — in `EmailClassifierOptimized.classify`. -/
theorem classify_all_tiers_fail_fallback :
    (∀ (cats : List EmailCategory) (useLumo : Bool)
        (lumoOut : Option String × ℚ × String)
        (nowS email_id subject body : String),
      (useLumo = true → lumoOut = (none, 0, "")) →
      (∀ cat ∈ cats, kwMatches (kwContent subject body) cat = 0) →
      (classifyPlain cats useLumo lumoOut nowS email_id subject
          body).category = "UNKNOWN" ∧
      (classifyPlain cats useLumo lumoOut nowS email_id subject
          body).confidence = 0 ∧
      (classifyPlain cats useLumo lumoOut nowS email_id subject
          body).method = "fallback") ∧
    (∀ (cfg : OptCfg) (cache : OptCache)
        (email_id subject body from_address : String),
      dictGet cache (computeEmailHash cfg.hashFn from_address subject) =
        none →
      (classifyWithKeywordsOpt subject body).2.1 < 3/4 →
      (cfg.useApi = false ∨ ∀ b, apiRespFails cfg.hasKey (cfg.resp b)) →
      (classifyOpt cfg cache email_id subject body
          from_address).category = "SPAM" ∧
      (classifyOpt cfg cache email_id subject body
          from_address).confidence = 0 ∧
      (classifyOpt cfg cache email_id subject body
          from_address).method = "fallback") := by
  constructor
  · intro cats useLumo lumoOut nowS email_id subject body hl hz
    rw [classifyPlain_fallback cats useLumo lumoOut nowS email_id subject
      body hl hz]
    exact ⟨rfl, rfl, rfl⟩
  · intro cfg cache email_id subject body from_address hmiss hkw hapi
    rw [classifyOpt_fallback cfg cache email_id subject body from_address
      hmiss hkw hapi]
    exact ⟨rfl, rfl, rfl⟩

/-- C5 counterexample: with an empty cache, no keyword match anywhere and a
remote transport failure, the optimized `classify` hands back category
`SPAM` — not `UNKNOWN` as the claim states. -/
theorem classify_all_tiers_fail_fallback_counterexample :
    (classifyOpt ⟨fun s => s, true, false, "ts",
        fun _ => ApiResp.exnTransport⟩ [] "id1" "zzz" "zzz"
      "x@y.com").category = "SPAM" ∧
    (classifyOpt ⟨fun s => s, true, false, "ts",
        fun _ => ApiResp.exnTransport⟩ [] "id1" "zzz" "zzz"
      "x@y.com").category ≠ "UNKNOWN" := by
  have hkw : (classifyWithKeywordsOpt "zzz" "zzz").2.1 < 3/4 := by
    rw [classifyWithKeywordsOpt_zero "zzz" "zzz" (by decide)]
    norm_num
  have h := classifyOpt_fallback ⟨fun s => s, true, false, "ts",
    fun _ => ApiResp.exnTransport⟩ [] "id1" "zzz" "zzz" "x@y.com" rfl hkw
    (Or.inr fun _ => Or.inl rfl)
  rw [h]
  exact ⟨rfl, by decide⟩

theorem classify_all_tiers_fail_fallback_witness :
    (classifyPlain DEFAULT_CATEGORIES_PLAIN false (none, 0, "") "ts" "id3"
      "zzz" "zzz").category = "UNKNOWN" ∧
    (classifyPlain DEFAULT_CATEGORIES_PLAIN false (none, 0, "") "ts" "id3"
      "zzz" "zzz").confidence = 0 ∧
    (classifyPlain DEFAULT_CATEGORIES_PLAIN false (none, 0, "") "ts" "id3"
      "zzz" "zzz").method = "fallback" :=
  classify_all_tiers_fail_fallback.1 DEFAULT_CATEGORIES_PLAIN false
    (none, 0, "") "ts" "id3" "zzz" "zzz" (fun h => absurd h (by decide))
    (by decide)

/-! ## AdaptiveLearner (scripts/adaptive_learner.py)

`learn_from_correction` appends the correction to the log and then
`_extract_patterns` updates the three rule maps: a sender-exact rule on
the first correction from a non-empty sender, a domain rule only after ≥2
corroborating corrections whose dominant category share exceeds 70%, and
likewise for subject keywords (words longer than 4 characters, at most 5
per subject). -/

/-- Python `s.split()`: split on whitespace runs, no empty tokens. -/
def pySplitPred (p : Char → Bool) : List Char → List (List Char)
  | [] => [[]]
  | c :: cs =>
    match pySplitPred p cs with
    | [] => [[]]
    | h :: t => if p c then [] :: h :: t else (c :: h) :: t

def pyWords (s : String) : List String :=
  ((pySplitPred (fun c => c.isWhitespace) s.data).map
    (fun l => (⟨l⟩ : String))).filter (fun w => w ≠ "")

structure LearnedPatterns where
  sender_rules : List (String × String)
  subject_keywords : List (String × String)
  domain_rules : List (String × String)
  content_patterns : List (String × String)
deriving DecidableEq

structure Correction where
  email_id : String
  subject : String
  sender : String
  body_preview : String
  wrong_category : String
  correct_category : String
  timestamp : String
deriving DecidableEq

structure LearnerState where
  corrections : List Correction
  learned_patterns : LearnedPatterns
deriving DecidableEq

/-- `'@' + sender.split('@')[1]`. -/
def senderDomain (sender : String) : String :=
  "@" ++ ((pySplit '@' sender).get? 1).getD ""

/-- `words = [w for w in subject.split() if len(w) > 4]`, then `words[:5]`,
on the already-lowercased subject. -/
def extractWords (subjectLower : String) : List String :=
  ((pyWords subjectLower).filter (fun w => 4 < w.length)).take 5

/-- The body of the `for word in words[:5]` loop of `_extract_patterns`. -/
def kwStep (corrections : List Correction) (correct_category : String)
    (p : LearnedPatterns) (word : String) : LearnedPatterns :=
  if (dictGet p.subject_keywords word).isNone then
    let word_corrections := corrections.filter
      (fun c2 => containsSub (pyLower c2.subject) word)
    if 2 ≤ word_corrections.length then
      let categories := word_corrections.map (fun c2 => c2.correct_category)
      if (7 : ℚ)/10 <
          (categories.count correct_category : ℚ) / (categories.length : ℚ)
      then
        { p with subject_keywords :=
            dictSet p.subject_keywords word correct_category }
      else p
    else p
  else p

/-- The sender-exact rule write of `_extract_patterns` (lines 214-218):
one correction from a non-empty sender suffices. -/
def senderStep (p0 : LearnedPatterns) (sender correct_category : String) :
    LearnedPatterns :=
  if sender ≠ "" ∧ (dictGet p0.sender_rules sender).isNone then
    { p0 with sender_rules := dictSet p0.sender_rules sender correct_category }
  else p0

/-- The domain rule write of `_extract_patterns` (lines 221-230): requires
≥2 corrections whose sender contains the domain and a >70% share for the
the category of the current correction. -/
def domainStep (corrections : List Correction) (p1 : LearnedPatterns)
    (sender correct_category : String) : LearnedPatterns :=
  if containsSub sender "@" then
    if (dictGet p1.domain_rules (senderDomain sender)).isNone then
      let domain_corrections := corrections.filter
        (fun c2 => containsSub c2.sender (senderDomain sender))
      if 2 ≤ domain_corrections.length then
        let categories := domain_corrections.map
          (fun c2 => c2.correct_category)
        if (7 : ℚ)/10 < (categories.count correct_category : ℚ) /
            (categories.length : ℚ) then
          { p1 with domain_rules :=
              dictSet p1.domain_rules (senderDomain sender) correct_category }
        else p1
      else p1
    else p1
  else p1

/-- `AdaptiveLearner._extract_patterns` (lines 206-244); `corrections` is
`self.corrections`, which already contains the new correction. -/
def extractPatterns (corrections : List Correction) (p0 : LearnedPatterns)
    (c : Correction) : LearnedPatterns :=
  (extractWords (pyLower c.subject)).foldl
    (kwStep corrections c.correct_category)
    (domainStep corrections (senderStep p0 c.sender c.correct_category)
      c.sender c.correct_category)

/-- `AdaptiveLearner.learn_from_correction` (lines 183-204). -/
def learnFromCorrection (nowS : String) (s : LearnerState)
    (email_id subject sender body_preview wrong_category
      correct_category : String) : LearnerState :=
  let correction : Correction :=
    { email_id := email_id, subject := subject, sender := sender,
      body_preview := pyTake 200 body_preview,
      wrong_category := wrong_category,
      correct_category := correct_category, timestamp := nowS }
  let corrections2 := s.corrections ++ [correction]
  { corrections := corrections2,
    learned_patterns :=
      extractPatterns corrections2 s.learned_patterns correction }

/-- `AdaptiveLearner.predict_from_rules` (lines 316-342): sender-exact at
0.95, then domain at 0.85, then first matching subject keyword at 0.75. -/
def predictFromRules (p : LearnedPatterns) (sender subject : String) :
    Option (String × ℚ) :=
  match dictGet p.sender_rules sender with
  | some category => some (category, 95/100)
  | none =>
    match (if sender ≠ "" ∧ containsSub sender "@" then
        dictGet p.domain_rules (senderDomain sender) else none) with
    | some category => some (category, 85/100)
    | none =>
      match p.subject_keywords.find?
          (fun kv => containsSub (pyLower subject) kv.1) with
      | some kv => some (kv.2, 75/100)
      | none => none

theorem dictGet_nil (k : String) : dictGet ([] : List (String × β)) k = none :=
  rfl

theorem dictGet_cons (x : String × β) (xs : List (String × β)) (k : String) :
    dictGet (x :: xs) k = if x.1 = k then some x.2 else dictGet xs k := by
  unfold dictGet
  by_cases hx : x.1 = k
  · rw [List.find?_cons_of_pos _ (by simp [hx]), if_pos hx]
    rfl
  · rw [List.find?_cons_of_neg _ (by simp [hx]), if_neg hx]

theorem dictGet_mapSet (d : List (String × β)) (k : String) (v : β)
    (h : (dictGet d k).isSome) :
    dictGet (d.map (fun p => if p.1 = k then (k, v) else p)) k = some v := by
  induction d with
  | nil => simp [dictGet] at h
  | cons p ps ih =>
    rw [List.map_cons]
    by_cases hp : p.1 = k
    · rw [if_pos hp, dictGet_cons]
      simp
    · rw [if_neg hp, dictGet_cons, if_neg hp]
      apply ih
      rw [dictGet_cons, if_neg hp] at h
      exact h

theorem dictGet_append_single (d : List (String × β)) (k : String) (v : β)
    (h : dictGet d k = none) :
    dictGet (d ++ [(k, v)]) k = some v := by
  induction d with
  | nil =>
    rw [List.nil_append, dictGet_cons]
    simp
  | cons p ps ih =>
    rw [List.cons_append, dictGet_cons]
    by_cases hp : p.1 = k
    · rw [dictGet_cons, if_pos hp] at h
      cases h
    · rw [if_neg hp]
      apply ih
      rw [dictGet_cons, if_neg hp] at h
      exact h

theorem dictGet_dictSet_self (d : List (String × β)) (k : String) (v : β) :
    dictGet (dictSet d k v) k = some v := by
  unfold dictSet
  by_cases h : (dictGet d k).isSome
  · rw [if_pos h]
    exact dictGet_mapSet d k v h
  · rw [if_neg h]
    exact dictGet_append_single d k v (Option.not_isSome_iff_eq_none.mp h)

theorem dictGet_map_ne (d : List (String × β)) (k : String) (v : β)
    (k' : String) (h : k' ≠ k) :
    dictGet (d.map (fun p => if p.1 = k then (k, v) else p)) k' =
      dictGet d k' := by
  induction d with
  | nil => rfl
  | cons p ps ih =>
    rw [List.map_cons, dictGet_cons, dictGet_cons]
    by_cases hp : p.1 = k
    · have h1 : ¬ ((k, v) : String × β).1 = k' := fun hh => h hh.symm
      have h2 : ¬ p.1 = k' := by rw [hp]; exact fun hh => h hh.symm
      rw [if_pos hp, if_neg h1, if_neg h2]
      exact ih
    · rw [if_neg hp]
      by_cases hpk : p.1 = k'
      · rw [if_pos hpk, if_pos hpk]
      · rw [if_neg hpk, if_neg hpk]
        exact ih

theorem dictGet_append_ne (d : List (String × β)) (k : String) (v : β)
    (k' : String) (h : k' ≠ k) :
    dictGet (d ++ [(k, v)]) k' = dictGet d k' := by
  induction d with
  | nil =>
    rw [List.nil_append, dictGet_cons, if_neg (fun hh => h hh.symm)]
  | cons p ps ih =>
    rw [List.cons_append, dictGet_cons, dictGet_cons]
    by_cases hpk : p.1 = k'
    · rw [if_pos hpk, if_pos hpk]
    · rw [if_neg hpk, if_neg hpk]
      exact ih

theorem dictGet_dictSet_ne (d : List (String × β)) (k : String) (v : β)
    (k' : String) (h : k' ≠ k) :
    dictGet (dictSet d k v) k' = dictGet d k' := by
  unfold dictSet
  split
  · exact dictGet_map_ne d k v k' h
  · exact dictGet_append_ne d k v k' h

theorem senderStep_subject_keywords (p0 : LearnedPatterns) (sender cc : String) :
    (senderStep p0 sender cc).subject_keywords = p0.subject_keywords := by
  unfold senderStep
  split <;> rfl

theorem senderStep_domain_rules (p0 : LearnedPatterns) (sender cc : String) :
    (senderStep p0 sender cc).domain_rules = p0.domain_rules := by
  unfold senderStep
  split <;> rfl

theorem domainStep_sender_rules (co : List Correction) (p1 : LearnedPatterns)
    (sender cc : String) :
    (domainStep co p1 sender cc).sender_rules = p1.sender_rules := by
  simp only [domainStep]
  split_ifs <;> rfl

theorem domainStep_subject_keywords (co : List Correction)
    (p1 : LearnedPatterns) (sender cc : String) :
    (domainStep co p1 sender cc).subject_keywords = p1.subject_keywords := by
  simp only [domainStep]
  split_ifs <;> rfl

theorem kwStep_sender_rules (co : List Correction) (cc : String)
    (p : LearnedPatterns) (w : String) :
    (kwStep co cc p w).sender_rules = p.sender_rules := by
  simp only [kwStep]
  split_ifs <;> rfl

theorem kwStep_domain_rules (co : List Correction) (cc : String)
    (p : LearnedPatterns) (w : String) :
    (kwStep co cc p w).domain_rules = p.domain_rules := by
  simp only [kwStep]
  split_ifs <;> rfl

theorem kwFold_sender_rules (co : List Correction) (cc : String)
    (words : List String) :
    ∀ p : LearnedPatterns,
      (words.foldl (kwStep co cc) p).sender_rules = p.sender_rules := by
  induction words with
  | nil => intro p; rfl
  | cons w ws ih =>
    intro p
    rw [List.foldl_cons, ih, kwStep_sender_rules]

theorem kwFold_domain_rules (co : List Correction) (cc : String)
    (words : List String) :
    ∀ p : LearnedPatterns,
      (words.foldl (kwStep co cc) p).domain_rules = p.domain_rules := by
  induction words with
  | nil => intro p; rfl
  | cons w ws ih =>
    intro p
    rw [List.foldl_cons, ih, kwStep_domain_rules]

theorem senderStep_new (p0 : LearnedPatterns) (sender cc : String)
    (hs : sender ≠ "") (h0 : dictGet p0.sender_rules sender = none) :
    dictGet (senderStep p0 sender cc).sender_rules sender = some cc := by
  unfold senderStep
  rw [if_pos ⟨hs, by simp [h0]⟩]
  exact dictGet_dictSet_self _ _ _

theorem senderStep_preserve (p0 : LearnedPatterns) (sender cc snd cat : String)
    (h : dictGet p0.sender_rules snd = some cat) :
    dictGet (senderStep p0 sender cc).sender_rules snd = some cat := by
  unfold senderStep
  split_ifs with h1
  · by_cases hs : snd = sender
    · subst hs
      simp [h] at h1
    · exact (dictGet_dictSet_ne p0.sender_rules sender cc snd hs).trans h
  · exact h

theorem domainStep_new_binding (co : List Correction) (p1 : LearnedPatterns)
    (sender cc : String) (d : String) (v : String)
    (h0 : dictGet p1.domain_rules d = none)
    (h1 : dictGet (domainStep co p1 sender cc).domain_rules d = some v) :
    v = cc ∧
    2 ≤ (co.filter (fun c2 => containsSub c2.sender d)).length ∧
    (7 : ℚ)/10 <
      (((co.filter (fun c2 => containsSub c2.sender d)).map
        (fun c2 => c2.correct_category)).count cc : ℚ) /
      (((co.filter (fun c2 => containsSub c2.sender d)).map
        (fun c2 => c2.correct_category)).length : ℚ) := by
  simp only [domainStep] at h1
  split_ifs at h1 with ha hb hcnt hr
  · by_cases hd : d = senderDomain sender
    · subst hd
      have h1' : dictGet (dictSet p1.domain_rules (senderDomain sender) cc)
          (senderDomain sender) = some v := h1
      rw [dictGet_dictSet_self] at h1'
      exact ⟨(Option.some.inj h1').symm, hcnt, hr⟩
    · have h1' : dictGet (dictSet p1.domain_rules (senderDomain sender) cc) d =
        some v := h1
      rw [dictGet_dictSet_ne _ _ _ _ hd, h0] at h1'
      cases h1'
  all_goals rw [h0] at h1; cases h1

theorem kwStep_preserve_binding (co : List Correction) (cc : String)
    (p : LearnedPatterns) (w word : String) (v : String)
    (h : dictGet p.subject_keywords word = some v) :
    dictGet (kwStep co cc p w).subject_keywords word = some v := by
  simp only [kwStep]
  split_ifs with h1 h2 h3
  · by_cases hw : word = w
    · subst hw
      simp [h] at h1
    · exact (dictGet_dictSet_ne p.subject_keywords w cc word hw).trans h
  all_goals exact h

theorem kwFold_preserve_binding (co : List Correction) (cc : String)
    (words : List String) :
    ∀ (p : LearnedPatterns) (word v : String),
      dictGet p.subject_keywords word = some v →
      dictGet ((words.foldl (kwStep co cc) p)).subject_keywords word =
        some v := by
  induction words with
  | nil => intro p word v h; exact h
  | cons w ws ih =>
    intro p word v h
    rw [List.foldl_cons]
    exact ih _ word v (kwStep_preserve_binding co cc p w word v h)

theorem kwStep_new_binding (co : List Correction) (cc : String)
    (p : LearnedPatterns) (w word : String) (v : String)
    (hpre : dictGet p.subject_keywords word = none)
    (hpost : dictGet (kwStep co cc p w).subject_keywords word = some v) :
    v = cc ∧
    2 ≤ (co.filter (fun c2 => containsSub (pyLower c2.subject) word)).length ∧
    (7 : ℚ)/10 <
      (((co.filter (fun c2 => containsSub (pyLower c2.subject) word)).map
        (fun c2 => c2.correct_category)).count cc : ℚ) /
      (((co.filter (fun c2 => containsSub (pyLower c2.subject) word)).map
        (fun c2 => c2.correct_category)).length : ℚ) := by
  simp only [kwStep] at hpost
  split_ifs at hpost with h1 h2 h3
  · by_cases hw : word = w
    · subst hw
      have h' : dictGet (dictSet p.subject_keywords word cc) word = some v :=
        hpost
      rw [dictGet_dictSet_self] at h'
      exact ⟨(Option.some.inj h').symm, h2, h3⟩
    · have h' : dictGet (dictSet p.subject_keywords w cc) word = some v :=
        hpost
      rw [dictGet_dictSet_ne _ _ _ _ hw, hpre] at h'
      cases h'
  all_goals rw [hpre] at hpost; cases hpost

theorem kwFold_new_binding (co : List Correction) (cc : String)
    (words : List String) :
    ∀ (p : LearnedPatterns) (word v : String),
      dictGet p.subject_keywords word = none →
      dictGet ((words.foldl (kwStep co cc) p)).subject_keywords word =
        some v →
      v = cc ∧
      2 ≤ (co.filter
        (fun c2 => containsSub (pyLower c2.subject) word)).length ∧
      (7 : ℚ)/10 <
        (((co.filter (fun c2 => containsSub (pyLower c2.subject) word)).map
          (fun c2 => c2.correct_category)).count cc : ℚ) /
        (((co.filter (fun c2 => containsSub (pyLower c2.subject) word)).map
          (fun c2 => c2.correct_category)).length : ℚ) := by
  induction words with
  | nil =>
    intro p word v h0 h1
    rw [List.foldl_nil, h0] at h1
    cases h1
  | cons w ws ih =>
    intro p word v h0 h1
    rw [List.foldl_cons] at h1
    by_cases hb : dictGet (kwStep co cc p w).subject_keywords word = none
    · exact ih _ word v hb h1
    · obtain ⟨v2, hv2⟩ := Option.ne_none_iff_exists'.mp hb
      have hfin := kwFold_preserve_binding co cc ws _ word v2 hv2
      have hvv : v2 = v := Option.some.inj (hfin.symm.trans h1)
      subst hvv
      exact kwStep_new_binding co cc p w word v2 h0 hv2

/-- C8: a domain or subject-keyword rule is written into the active rule
table by `learn_from_correction` only when, over the correction log
including the new correction, at least two corroborating corrections exist
for that domain/keyword and the written (hence dominant) category accounts
for more than 70% of them; a sender-exact rule is written after a single
correction from a non-empty sender, with no threshold. -/
theorem rule_promotion_thresholds (s : LearnerState)
    (nowS email_id subject sender body_preview wrong_category
      correct_category : String) (s2 : LearnerState)
    (hs2 : s2 = learnFromCorrection nowS s email_id subject sender
      body_preview wrong_category correct_category) :
    (∀ d v, dictGet s.learned_patterns.domain_rules d = none →
      dictGet s2.learned_patterns.domain_rules d = some v →
      v = correct_category ∧
      2 ≤ (s2.corrections.filter
        (fun c2 => containsSub c2.sender d)).length ∧
      (7 : ℚ)/10 <
        (((s2.corrections.filter (fun c2 => containsSub c2.sender d)).map
          (fun c2 => c2.correct_category)).count v : ℚ) /
        (((s2.corrections.filter (fun c2 => containsSub c2.sender d)).map
          (fun c2 => c2.correct_category)).length : ℚ)) ∧
    (∀ w v, dictGet s.learned_patterns.subject_keywords w = none →
      dictGet s2.learned_patterns.subject_keywords w = some v →
      v = correct_category ∧
      2 ≤ (s2.corrections.filter
        (fun c2 => containsSub (pyLower c2.subject) w)).length ∧
      (7 : ℚ)/10 <
        (((s2.corrections.filter
            (fun c2 => containsSub (pyLower c2.subject) w)).map
          (fun c2 => c2.correct_category)).count v : ℚ) /
        (((s2.corrections.filter
            (fun c2 => containsSub (pyLower c2.subject) w)).map
          (fun c2 => c2.correct_category)).length : ℚ)) ∧
    (sender ≠ "" → dictGet s.learned_patterns.sender_rules sender = none →
      dictGet s2.learned_patterns.sender_rules sender =
        some correct_category) := by
  subst hs2
  simp only [learnFromCorrection, extractPatterns]
  refine ⟨?_, ?_, ?_⟩
  · intro d v h0 h1
    rw [kwFold_domain_rules] at h1
    have h0' : dictGet (senderStep s.learned_patterns sender
        correct_category).domain_rules d = none := by
      rw [senderStep_domain_rules]
      exact h0
    obtain ⟨hv, hcnt, hr⟩ := domainStep_new_binding _ _ _ _ d v h0' h1
    subst hv
    exact ⟨rfl, hcnt, hr⟩
  · intro w v h0 h1
    have h0' : dictGet (domainStep
        (s.corrections ++ [⟨email_id, subject, sender,
          pyTake 200 body_preview, wrong_category, correct_category, nowS⟩])
        (senderStep s.learned_patterns sender correct_category) sender
        correct_category).subject_keywords w = none := by
      rw [domainStep_subject_keywords, senderStep_subject_keywords]
      exact h0
    obtain ⟨hv, hcnt, hr⟩ := kwFold_new_binding _ _ _ _ w v h0' h1
    subst hv
    exact ⟨rfl, hcnt, hr⟩
  · intro hs h0
    rw [kwFold_sender_rules, domainStep_sender_rules]
    exact senderStep_new s.learned_patterns sender correct_category hs h0

theorem rule_promotion_thresholds_witness :
    dictGet (learnFromCorrection "t0" ⟨[], ⟨[], [], [], []⟩⟩ "m1"
        "Projet deadline" "a@b.com" "" "SPAM"
        "PRO").learned_patterns.sender_rules "a@b.com" = some "PRO" :=
  (rule_promotion_thresholds ⟨[], ⟨[], [], [], []⟩⟩ "t0" "m1"
    "Projet deadline" "a@b.com" "" "SPAM" "PRO" _ rfl).2.2 (by decide) rfl

/-- C10: once a sender-exact rule exists, no later `learn_from_correction`
call changes it (even a correction for the same sender with a different
correct category leaves the original rule), and `predict_from_rules` keeps
returning the first-learned category at confidence 0.95. -/
theorem sender_rule_first_write_wins (s : LearnerState) (snd cat : String)
    (h : dictGet s.learned_patterns.sender_rules snd = some cat) :
    (∀ nowS email_id subject sender body_preview wrong_category
        correct_category,
      dictGet (learnFromCorrection nowS s email_id subject sender
          body_preview wrong_category
          correct_category).learned_patterns.sender_rules snd = some cat) ∧
    (∀ subject2,
      predictFromRules s.learned_patterns snd subject2 =
        some (cat, 95/100)) := by
  constructor
  · intro nowS email_id subject sender body_preview wrong_category
      correct_category
    simp only [learnFromCorrection, extractPatterns]
    rw [kwFold_sender_rules, domainStep_sender_rules]
    exact senderStep_preserve s.learned_patterns sender correct_category
      snd cat h
  · intro subject2
    simp [predictFromRules, h]

theorem sender_rule_first_write_wins_witness :
    dictGet (learnFromCorrection "t1"
        ⟨[], ⟨[("a@b.com", "PRO")], [], [], []⟩⟩ "m2" "re" "a@b.com" ""
        "PRO" "SPAM").learned_patterns.sender_rules "a@b.com" =
      some "PRO" ∧
    predictFromRules ⟨[("a@b.com", "PRO")], [], [], []⟩ "a@b.com" "s" =
      some ("PRO", 95/100) :=
  ⟨(sender_rule_first_write_wins ⟨[], ⟨[("a@b.com", "PRO")], [], [], []⟩⟩
      "a@b.com" "PRO" rfl).1 "t1" "m2" "re" "a@b.com" "" "PRO" "SPAM",
   (sender_rule_first_write_wins ⟨[], ⟨[("a@b.com", "PRO")], [], [], []⟩⟩
      "a@b.com" "PRO" rfl).2 "s"⟩

/-! ## Per-folder scan/move loop (src/email_processor.py and
scripts/email_processor.py, `EmailProcessor.process_folder`)

The IMAP round trips are oracles: `MsgEnv` gives, per message id, the
RFC822 fetch status, the classifier's answer, the outcome of
`ensure_folder_exists` and of the `COPY` command.  The loop body's
observable effects are the checkpoint state (`processed_emails`,
`processed_count`) and a trace of classify / copy / store-deleted
actions. -/

inductive CopyOutcome
  | okCopy : CopyOutcome
  | failCopy : CopyOutcome
  | exnCopy : CopyOutcome
deriving DecidableEq

structure MsgEnv where
  fetchOk : Bool
  category : String
  confidence : ℚ
  ensureOk : Bool
  copyRes : CopyOutcome

inductive MsgAct
  | classifyA : String → MsgAct
  | copyA : String → String → MsgAct
  | storeDeletedA : String → MsgAct
deriving DecidableEq

def MsgAct.uid : MsgAct → String
  | .classifyA u => u
  | .copyA u _ => u
  | .storeDeletedA u => u

structure ProcState where
  processed_emails : Finset String
  processed_count : ℕ

/-- `email_key = f'{folder_name}:{email_uid}'`. -/
def mkEmailKey (folder_name email_uid : String) : String :=
  folder_name ++ ":" ++ email_uid

/-- `EmailProcessor.get_target_folder`: `None` for `UNKNOWN`, else the
configured category's folder. -/
def getTargetFolder (categories : List EmailCategory) (category : String) :
    Option String :=
  if category = "UNKNOWN" then none
  else (categories.find? (fun c => c.name = category)).map (fun c => c.folder)

/-- The per-message body of `process_folder` in src/email_processor.py
(lines 350-417): after a failed copy (non-OK status or exception) control
falls through to `self.processed_emails.add(email_key)` — the key is added
regardless of the copy outcome; only `ensure_folder_exists` failure and
fetch failure skip the add. -/
def rootStep (categories : List EmailCategory) (dryRun : Bool)
    (env : String → MsgEnv) (folder_name : String) (st : ProcState)
    (email_uid : String) : ProcState × List MsgAct :=
  let email_key := mkEmailKey folder_name email_uid
  if email_key ∈ st.processed_emails then (st, [])
  else
    let e := env email_uid
    if ¬ e.fetchOk then (st, [])
    else
      match getTargetFolder categories e.category with
      | none =>
        ({ st with processed_emails := insert email_key st.processed_emails },
          [MsgAct.classifyA email_uid])
      | some target_folder =>
        if ¬ e.ensureOk then (st, [MsgAct.classifyA email_uid])
        else if dryRun then
          ({ st with processed_emails := insert email_key st.processed_emails },
            [MsgAct.classifyA email_uid])
        else
          match e.copyRes with
          | CopyOutcome.okCopy =>
            (⟨insert email_key st.processed_emails, st.processed_count + 1⟩,
              [MsgAct.classifyA email_uid,
                MsgAct.copyA email_uid target_folder,
                MsgAct.storeDeletedA email_uid])
          | CopyOutcome.failCopy =>
            ({ st with processed_emails := insert email_key st.processed_emails },
              [MsgAct.classifyA email_uid,
                MsgAct.copyA email_uid target_folder])
          | CopyOutcome.exnCopy =>
            ({ st with processed_emails := insert email_key st.processed_emails },
              [MsgAct.classifyA email_uid,
                MsgAct.copyA email_uid target_folder])

/-- The per-message body of `process_folder` in scripts/email_processor.py
(lines 467-547): the key is added to `processed_emails` only inside the
`res == 'OK'` branch of the copy (or in dry-run / no-target cases); a
failed or raising copy leaves the checkpoint untouched. -/
def scriptsStep (categories : List EmailCategory) (dryRun : Bool)
    (env : String → MsgEnv) (folder_name : String) (st : ProcState)
    (email_uid : String) : ProcState × List MsgAct :=
  let email_key := mkEmailKey folder_name email_uid
  if email_key ∈ st.processed_emails then (st, [])
  else
    let e := env email_uid
    if ¬ e.fetchOk then (st, [])
    else
      match getTargetFolder categories e.category with
      | some target_folder =>
        if ¬ dryRun then
          if ¬ e.ensureOk then (st, [MsgAct.classifyA email_uid])
          else
            match e.copyRes with
            | CopyOutcome.okCopy =>
              (⟨insert email_key st.processed_emails,
                  st.processed_count + 1⟩,
                [MsgAct.classifyA email_uid,
                  MsgAct.copyA email_uid target_folder,
                  MsgAct.storeDeletedA email_uid])
            | CopyOutcome.failCopy =>
              (st, [MsgAct.classifyA email_uid,
                MsgAct.copyA email_uid target_folder])
            | CopyOutcome.exnCopy =>
              (st, [MsgAct.classifyA email_uid,
                MsgAct.copyA email_uid target_folder])
        else
          ({ st with processed_emails := insert email_key st.processed_emails },
            [MsgAct.classifyA email_uid])
      | none =>
        ({ st with processed_emails := insert email_key st.processed_emails },
          [MsgAct.classifyA email_uid])

/-- The `for email_id in email_ids` loop of `process_folder`, collecting
the per-message effects in order. -/
def runFolderPass (step : ProcState → String → ProcState × List MsgAct)
    (st : ProcState) : List String → ProcState × List MsgAct
  | [] => (st, [])
  | uid :: rest =>
    ((runFolderPass step (step st uid).1 rest).1,
      (step st uid).2 ++ (runFolderPass step (step st uid).1 rest).2)

theorem rootStep_act_uid (categories : List EmailCategory) (dryRun : Bool)
    (env : String → MsgEnv) (folder_name : String) :
    ∀ st u a, a ∈ (rootStep categories dryRun env folder_name st u).2 →
      MsgAct.uid a = u := by
  intro st u a ha
  by_cases h1 : mkEmailKey folder_name u ∈ st.processed_emails
  · simp [rootStep, h1] at ha
  · cases hf : (env u).fetchOk with
    | false => simp [rootStep, h1, hf] at ha
    | true =>
      rcases hm : getTargetFolder categories (env u).category with _ | tf
      · simp [rootStep, h1, hf, hm] at ha
        subst ha
        rfl
      · cases he : (env u).ensureOk with
        | false =>
          simp [rootStep, h1, hf, hm, he] at ha
          subst ha
          rfl
        | true =>
          cases hd : dryRun with
          | true =>
            simp [rootStep, h1, hf, hm, he, hd] at ha
            subst ha
            rfl
          | false =>
            cases hc : (env u).copyRes with
            | okCopy =>
              simp [rootStep, h1, hf, hm, he, hd, hc] at ha
              rcases ha with rfl | rfl | rfl <;> rfl
            | failCopy =>
              simp [rootStep, h1, hf, hm, he, hd, hc] at ha
              rcases ha with rfl | rfl <;> rfl
            | exnCopy =>
              simp [rootStep, h1, hf, hm, he, hd, hc] at ha
              rcases ha with rfl | rfl <;> rfl

theorem scriptsStep_act_uid (categories : List EmailCategory) (dryRun : Bool)
    (env : String → MsgEnv) (folder_name : String) :
    ∀ st u a, a ∈ (scriptsStep categories dryRun env folder_name st u).2 →
      MsgAct.uid a = u := by
  intro st u a ha
  by_cases h1 : mkEmailKey folder_name u ∈ st.processed_emails
  · simp [scriptsStep, h1] at ha
  · cases hf : (env u).fetchOk with
    | false => simp [scriptsStep, h1, hf] at ha
    | true =>
      rcases hm : getTargetFolder categories (env u).category with _ | tf
      · simp [scriptsStep, h1, hf, hm] at ha
        subst ha
        rfl
      · cases hd : dryRun with
        | true =>
          simp [scriptsStep, h1, hf, hm, hd] at ha
          subst ha
          rfl
        | false =>
          cases he : (env u).ensureOk with
          | false =>
            simp [scriptsStep, h1, hf, hm, hd, he] at ha
            subst ha
            rfl
          | true =>
            cases hc : (env u).copyRes with
            | okCopy =>
              simp [scriptsStep, h1, hf, hm, hd, he, hc] at ha
              rcases ha with rfl | rfl | rfl <;> rfl
            | failCopy =>
              simp [scriptsStep, h1, hf, hm, hd, he, hc] at ha
              rcases ha with rfl | rfl <;> rfl
            | exnCopy =>
              simp [scriptsStep, h1, hf, hm, hd, he, hc] at ha
              rcases ha with rfl | rfl <;> rfl

theorem rootStep_mono (categories : List EmailCategory) (dryRun : Bool)
    (env : String → MsgEnv) (folder_name : String) :
    ∀ st u k, k ∈ st.processed_emails →
      k ∈ (rootStep categories dryRun env folder_name st
        u).1.processed_emails := by
  intro st u k hk
  by_cases h1 : mkEmailKey folder_name u ∈ st.processed_emails
  · simpa [rootStep, h1] using hk
  · cases hf : (env u).fetchOk with
    | false => simpa [rootStep, h1, hf] using hk
    | true =>
      rcases hm : getTargetFolder categories (env u).category with _ | tf
      · simp [rootStep, h1, hf, hm]
        exact Or.inr hk
      · cases he : (env u).ensureOk with
        | false => simpa [rootStep, h1, hf, hm, he] using hk
        | true =>
          cases hd : dryRun with
          | true =>
            simp [rootStep, h1, hf, hm, he, hd]
            exact Or.inr hk
          | false =>
            cases hc : (env u).copyRes <;>
              simp [rootStep, h1, hf, hm, he, hd, hc] <;>
              exact Or.inr hk

theorem scriptsStep_mono (categories : List EmailCategory) (dryRun : Bool)
    (env : String → MsgEnv) (folder_name : String) :
    ∀ st u k, k ∈ st.processed_emails →
      k ∈ (scriptsStep categories dryRun env folder_name st
        u).1.processed_emails := by
  intro st u k hk
  by_cases h1 : mkEmailKey folder_name u ∈ st.processed_emails
  · simpa [scriptsStep, h1] using hk
  · cases hf : (env u).fetchOk with
    | false => simpa [scriptsStep, h1, hf] using hk
    | true =>
      rcases hm : getTargetFolder categories (env u).category with _ | tf
      · simp [scriptsStep, h1, hf, hm]
        exact Or.inr hk
      · cases hd : dryRun with
        | true =>
          simp [scriptsStep, h1, hf, hm, hd]
          exact Or.inr hk
        | false =>
          cases he : (env u).ensureOk with
          | false => simpa [scriptsStep, h1, hf, hm, hd, he] using hk
          | true =>
            cases hc : (env u).copyRes with
            | okCopy =>
              simp [scriptsStep, h1, hf, hm, hd, he, hc]
              exact Or.inr hk
            | failCopy => simpa [scriptsStep, h1, hf, hm, hd, he, hc] using hk
            | exnCopy => simpa [scriptsStep, h1, hf, hm, hd, he, hc] using hk

theorem rootStep_skip (categories : List EmailCategory) (dryRun : Bool)
    (env : String → MsgEnv) (folder_name : String) (st : ProcState)
    (uid : String) (h : mkEmailKey folder_name uid ∈ st.processed_emails) :
    rootStep categories dryRun env folder_name st uid = (st, []) := by
  simp [rootStep, h]

theorem scriptsStep_skip (categories : List EmailCategory) (dryRun : Bool)
    (env : String → MsgEnv) (folder_name : String) (st : ProcState)
    (uid : String) (h : mkEmailKey folder_name uid ∈ st.processed_emails) :
    scriptsStep categories dryRun env folder_name st uid = (st, []) := by
  simp [scriptsStep, h]

theorem runFolderPass_no_touch
    (step : ProcState → String → ProcState × List MsgAct)
    (folder_name uid : String)
    (hact : ∀ st u a, a ∈ (step st u).2 → MsgAct.uid a = u)
    (hmono : ∀ st u k, k ∈ st.processed_emails →
      k ∈ (step st u).1.processed_emails)
    (hskip : ∀ st, mkEmailKey folder_name uid ∈ st.processed_emails →
      step st uid = (st, [])) :
    ∀ (email_ids : List String) (st : ProcState),
      mkEmailKey folder_name uid ∈ st.processed_emails →
      ∀ a ∈ (runFolderPass step st email_ids).2, MsgAct.uid a ≠ uid := by
  intro email_ids
  induction email_ids with
  | nil =>
    intro st _ a ha
    simp [runFolderPass] at ha
  | cons u rest ih =>
    intro st hin a ha
    simp only [runFolderPass, List.mem_append] at ha
    rcases ha with ha | ha
    · by_cases hu : u = uid
      · subst hu
        rw [hskip st hin] at ha
        simp at ha
      · rw [hact st u a ha]
        exact hu
    · exact ih (step st u).1 (hmono st u _ hin) a ha

/-- C3: a message identity already in the checkpoint's processed set at the
start of a folder pass is neither classified again nor subject to any
copy/store action during the whole pass — in both `process_folder`
implementations. -/
theorem processed_message_never_retouched (categories : List EmailCategory)
    (dryRun : Bool) (env : String → MsgEnv) (folder_name : String)
    (st : ProcState) (email_ids : List String) (uid : String)
    (h : mkEmailKey folder_name uid ∈ st.processed_emails) :
    (∀ a ∈ (runFolderPass (rootStep categories dryRun env folder_name) st
        email_ids).2, MsgAct.uid a ≠ uid) ∧
    (∀ a ∈ (runFolderPass (scriptsStep categories dryRun env folder_name) st
        email_ids).2, MsgAct.uid a ≠ uid) :=
  ⟨runFolderPass_no_touch _ folder_name uid
      (rootStep_act_uid categories dryRun env folder_name)
      (rootStep_mono categories dryRun env folder_name)
      (fun st2 => rootStep_skip categories dryRun env folder_name st2 uid)
      email_ids st h,
    runFolderPass_no_touch _ folder_name uid
      (scriptsStep_act_uid categories dryRun env folder_name)
      (scriptsStep_mono categories dryRun env folder_name)
      (fun st2 => scriptsStep_skip categories dryRun env folder_name st2 uid)
      email_ids st h⟩

theorem processed_message_never_retouched_witness :
    MsgAct.uid (MsgAct.classifyA "2") ≠ "1" :=
  (processed_message_never_retouched [⟨"PRO", "Travail", [], 7/10, 4, ""⟩]
    false (fun _ => ⟨true, "PRO", 1, true, CopyOutcome.okCopy⟩) "INBOX"
    ⟨{"INBOX:1"}, 0⟩ ["2", "1"] "1" (by decide)).1
    (MsgAct.classifyA "2") (by decide)

/-- C2 (amended): on a failed copy (non-OK status or raised exception)
during a non-dry-run pass, `process_folder` in scripts/email_processor.py
leaves the checkpoint state entirely unchanged, so the message stays
eligible for retry; but `process_folder` in src/email_processor.py falls
through to `processed_emails.add(email_key)` and marks the message
processed even though the copy failed. -/
theorem copy_failure_checkpoint (categories : List EmailCategory)
    (env : String → MsgEnv) (folder_name : String) (st : ProcState)
    (uid target_folder : String)
    (hk : mkEmailKey folder_name uid ∉ st.processed_emails)
    (hf : (env uid).fetchOk = true)
    (hm : getTargetFolder categories (env uid).category = some target_folder)
    (he : (env uid).ensureOk = true)
    (hc : (env uid).copyRes = CopyOutcome.failCopy ∨
      (env uid).copyRes = CopyOutcome.exnCopy) :
    (scriptsStep categories false env folder_name st uid).1 = st ∧
    (rootStep categories false env folder_name st uid).1.processed_emails =
      insert (mkEmailKey folder_name uid) st.processed_emails := by
  rcases hc with hc | hc <;>
    exact ⟨by simp [scriptsStep, hk, hf, hm, he, hc],
      by simp [rootStep, hk, hf, hm, he, hc]⟩

/-- C2 counterexample: in src/email_processor.py a message whose COPY
returns a non-OK status IS added to the processed set — the claim that a
failed copy leaves the identity out of the checkpoint fails there. -/
theorem copy_failure_checkpoint_counterexample :
    mkEmailKey "INBOX" "7" ∈
      (rootStep [⟨"PRO", "Travail", [], 7/10, 4, ""⟩] false
        (fun _ => ⟨true, "PRO", 9/10, true, CopyOutcome.failCopy⟩)
        "INBOX" ⟨∅, 0⟩ "7").1.processed_emails := by
  decide

theorem copy_failure_checkpoint_witness :
    (scriptsStep [⟨"PRO", "Travail", [], 7/10, 4, ""⟩] false
        (fun _ => ⟨true, "PRO", 9/10, true, CopyOutcome.failCopy⟩)
        "INBOX" ⟨∅, 0⟩ "7").1 = ⟨∅, 0⟩ ∧
    (rootStep [⟨"PRO", "Travail", [], 7/10, 4, ""⟩] false
        (fun _ => ⟨true, "PRO", 9/10, true, CopyOutcome.failCopy⟩)
        "INBOX" ⟨∅, 0⟩ "7").1.processed_emails =
      insert (mkEmailKey "INBOX" "7") (∅ : Finset String) :=
  copy_failure_checkpoint [⟨"PRO", "Travail", [], 7/10, 4, ""⟩]
    (fun _ => ⟨true, "PRO", 9/10, true, CopyOutcome.failCopy⟩) "INBOX"
    ⟨∅, 0⟩ "7" "Travail" (by decide) rfl rfl rfl (Or.inl rfl)

/-! ## Candidate capping by date (src/email_processor.py)

`get_email_date` is the per-message IMAP INTERNALDATE fetch, an oracle
`d : String → ℤ` here (it returns `datetime.min` on error, which the
oracle may model as any fixed low value).  `sort_emails_by_date` sorts the
candidate list by date descending — Python `list.sort(key=…, reverse=True)`
— and keeps the first `limit` entries. -/

def insertByDate (d : String → ℤ) (x : String) : List String → List String
  | [] => [x]
  | y :: ys => if d x > d y then x :: y :: ys else y :: insertByDate d x ys

def sortByDateDesc (d : String → ℤ) : List String → List String
  | [] => []
  | x :: xs => insertByDate d x (sortByDateDesc d xs)

/-- `EmailProcessor.sort_emails_by_date` (lines 268-282): identity when at
most `limit` candidates, else the `limit` most recent after a full sort by
date descending. -/
def sortEmailsByDate (d : String → ℤ) (email_ids : List String)
    (limit : ℕ) : List String :=
  if email_ids.length ≤ limit then email_ids
  else (sortByDateDesc d email_ids).take limit

def SPAM_TRASH_LIMIT : ℕ := 10

/-- `any(x in folder_lower for x in ['spam', 'trash', 'corbeille'])`. -/
def isSpamTrash (folder_name : String) : Bool :=
  ["spam", "trash", "corbeille"].any
    (fun x => containsSub (pyLower folder_name) x)

/-- The per-folder cap (lines 336-342): the small fixed spam/trash cap or
the configured `MAX_EMAILS_PER_FOLDER`. -/
def folderLimit (maxEmailsPerFolder : ℕ) (folder_name : String) : ℕ :=
  if isSpamTrash folder_name then SPAM_TRASH_LIMIT else maxEmailsPerFolder

/-- Candidate selection in `process_folder` (lines 344-346): cap applied
only when exceeded, via the date sort. -/
def selectCandidates (d : String → ℤ) (maxEmailsPerFolder : ℕ)
    (folder_name : String) (email_ids : List String) : List String :=
  if email_ids.length > folderLimit maxEmailsPerFolder folder_name then
    sortEmailsByDate d email_ids (folderLimit maxEmailsPerFolder folder_name)
  else email_ids

theorem insertByDate_perm (d : String → ℤ) (x : String) (l : List String) :
    List.Perm (insertByDate d x l) (x :: l) := by
  induction l with
  | nil => exact List.Perm.refl _
  | cons y ys ih =>
    simp only [insertByDate]
    by_cases hc : d x > d y
    · rw [if_pos hc]
    · rw [if_neg hc]
      exact (List.Perm.cons y ih).trans (List.Perm.swap x y ys)

theorem sortByDateDesc_perm (d : String → ℤ) (l : List String) :
    List.Perm (sortByDateDesc d l) l := by
  induction l with
  | nil => exact List.Perm.refl _
  | cons x xs ih =>
    simp only [sortByDateDesc]
    exact (insertByDate_perm d x (sortByDateDesc d xs)).trans
      (List.Perm.cons x ih)

theorem insertByDate_pairwise (d : String → ℤ) (x : String)
    (l : List String) (h : List.Pairwise (fun a b => d b ≤ d a) l) :
    List.Pairwise (fun a b => d b ≤ d a) (insertByDate d x l) := by
  induction l with
  | nil => simp [insertByDate]
  | cons y ys ih =>
    rw [List.pairwise_cons] at h
    simp only [insertByDate]
    by_cases hc : d x > d y
    · rw [if_pos hc]
      refine List.Pairwise.cons ?_ (List.Pairwise.cons h.1 h.2)
      intro b hb
      rcases List.mem_cons.mp hb with rfl | hb
      · exact le_of_lt hc
      · exact le_trans (h.1 b hb) (le_of_lt hc)
    · rw [if_neg hc]
      refine List.Pairwise.cons ?_ (ih h.2)
      intro b hb
      rcases List.mem_cons.mp
          ((insertByDate_perm d x ys).mem_iff.mp hb) with rfl | hb2
      · exact le_of_not_lt hc
      · exact h.1 b hb2

theorem sortByDateDesc_pairwise (d : String → ℤ) (l : List String) :
    List.Pairwise (fun a b => d b ≤ d a) (sortByDateDesc d l) := by
  induction l with
  | nil => simp [sortByDateDesc]
  | cons x xs ih =>
    simp only [sortByDateDesc]
    exact insertByDate_pairwise d x _ ih

/-- C7: when a folder's candidate list exceeds the applicable cap (the
fixed spam/trash cap or the configured per-folder cap), the coordinator
selects exactly cap-many candidates: together with the dropped remainder
they form a permutation of the original list, the selection is sorted by
date descending, and every selected candidate's date is at least every
dropped candidate's date — not an arbitrary prefix. -/
theorem folder_cap_selects_most_recent (d : String → ℤ)
    (maxEmailsPerFolder : ℕ) (folder_name : String)
    (email_ids : List String)
    (hover : folderLimit maxEmailsPerFolder folder_name <
      email_ids.length) :
    List.Perm
      (selectCandidates d maxEmailsPerFolder folder_name email_ids ++
        (sortByDateDesc d email_ids).drop
          (folderLimit maxEmailsPerFolder folder_name))
      email_ids ∧
    (selectCandidates d maxEmailsPerFolder folder_name email_ids).length =
      folderLimit maxEmailsPerFolder folder_name ∧
    List.Pairwise (fun a b => d b ≤ d a)
      (selectCandidates d maxEmailsPerFolder folder_name email_ids) ∧
    (∀ a ∈ selectCandidates d maxEmailsPerFolder folder_name email_ids,
      ∀ b ∈ (sortByDateDesc d email_ids).drop
        (folderLimit maxEmailsPerFolder folder_name), d b ≤ d a) := by
  have hsel : selectCandidates d maxEmailsPerFolder folder_name email_ids =
      (sortByDateDesc d email_ids).take
        (folderLimit maxEmailsPerFolder folder_name) := by
    unfold selectCandidates sortEmailsByDate
    rw [if_pos hover, if_neg (not_le.mpr hover)]
  have hlen : (sortByDateDesc d email_ids).length = email_ids.length :=
    (sortByDateDesc_perm d email_ids).length_eq
  have hp := sortByDateDesc_pairwise d email_ids
  refine ⟨?_, ?_, ?_, ?_⟩
  · rw [hsel, List.take_append_drop]
    exact sortByDateDesc_perm d email_ids
  · rw [hsel, List.length_take]
    exact min_eq_left (by rw [hlen]; exact le_of_lt hover)
  · rw [hsel]
    exact List.Pairwise.sublist (List.take_sublist _ _) hp
  · intro a ha b hb
    rw [hsel] at ha
    have hsplit := hp
    rw [← List.take_append_drop
      (folderLimit maxEmailsPerFolder folder_name)
      (sortByDateDesc d email_ids)] at hsplit
    exact (List.pairwise_append.mp hsplit).2.2 a ha b hb

theorem folder_cap_selects_most_recent_witness :
    (selectCandidates (fun u => (u.length : ℤ)) 2 "INBOX"
      ["a", "bb", "ccc"]).length = folderLimit 2 "INBOX" :=
  (folder_cap_selects_most_recent (fun u => (u.length : ℤ)) 2 "INBOX"
    ["a", "bb", "ccc"] (by decide)).2.1
